import Mathlib

/-!
Verification of the biometrics-score-logs-ingestor repository.

Shallow embedding of the Python modules `src/ingestor/parser.py`,
`src/ingestor/db.py`, `src/ingestor/processor.py`, `src/ingestor/state.py`
and `src/ingestor/collector.py`.  Python dictionaries are modelled as
insertion-ordered association lists, Python `int(...)` failures as `Option`,
and raised exceptions as `Except` values.
-/

set_option autoImplicit false

deriving instance DecidableEq for Except

namespace Ingestor

/-! ### Python primitives -/

/-- Characters treated as whitespace by Python's `str.split()` with no
arguments (ASCII subset; exotic unicode whitespace is not modelled). -/
def isPySpace (c : Char) : Bool :=
  c = ' ' || c = '\t' || c = '\n' || c = '\r' || c = '\x0b' || c = '\x0c'

/-- Split a character list into maximal runs of non-whitespace characters,
as Python's `str.split()` (which already drops empty pieces). -/
def splitWsCore (cs : List Char) : List (List Char) :=
  let step : List (List Char) × List Char → Char → List (List Char) × List Char :=
    fun p c =>
      if isPySpace c then (if p.2 = [] then p else (p.2.reverse :: p.1, []))
      else (p.1, c :: p.2)
  let r := cs.foldl step ([], [])
  (if r.2 = [] then r.1 else r.2.reverse :: r.1).reverse

/-- `line.strip().split()` with the empty pieces dropped, as in
`parse_line`: `[t for t in line.strip().split() if t]`.  `split()` with no
argument never yields empty pieces, so this is just whitespace splitting. -/
def pySplit (s : String) : List String :=
  (splitWsCore s.toList).map List.asString

/-- `line.rstrip("\n")`: drop trailing newline characters only. -/
def rstripNl (s : String) : String :=
  ((s.toList.reverse.dropWhile (fun c => c = '\n')).reverse).asString

/-- Numeric value of a digit list (most significant first). -/
def digitsVal (cs : List Char) : Nat :=
  cs.foldl (fun a c => 10 * a + (c.toNat - 48)) 0

/-- Model of Python `int(value)` on a whitespace-free token value: an
optional sign followed by one or more ASCII decimal digits.  (Python also
accepts surrounding whitespace, underscore digit separators and non-ASCII
digits; none of these can matter to the claims below.)  Returns `none`
where Python raises `ValueError`. -/
def pyInt (s : String) : Option Int :=
  match s.toList with
  | [] => none
  | '+' :: cs =>
      if cs ≠ [] ∧ cs.all Char.isDigit then some (digitsVal cs : Int) else none
  | '-' :: cs =>
      if cs ≠ [] ∧ cs.all Char.isDigit then some (-(digitsVal cs : Int)) else none
  | cs =>
      if cs.all Char.isDigit then some (digitsVal cs : Int) else none

/-- `token.split("=", 1)` first component: everything before the first `=`. -/
def keyOf (t : String) : String :=
  (t.toList.takeWhile (fun c => c ≠ '=')).asString

/-- `token.split("=", 1)` second component: everything after the first `=`. -/
def valOf (t : String) : String :=
  ((t.toList.dropWhile (fun c => c ≠ '=')).drop 1).asString

/-- `"=" in token`. -/
def hasEq (t : String) : Bool :=
  t.toList.contains '='

/-! ### Insertion-ordered dictionaries (Python `dict` model) -/

/-- `m[k] = v` on an insertion-ordered dictionary: replace the entry in
place when the key is present (keys of a `dict` are unique, so replacing
the first occurrence is replacing the only one), append otherwise. -/
def alSet {κ α : Type} [DecidableEq κ] : List (κ × α) → κ → α → List (κ × α)
  | [], k, v => [(k, v)]
  | p :: m, k, v => if p.1 = k then (k, v) :: m else p :: alSet m k v

/-- `m.get(k)` on a dictionary. -/
def alGet {κ α : Type} [DecidableEq κ] (m : List (κ × α)) (k : κ) : Option α :=
  (m.find? (fun p => p.1 = k)).map Prod.snd

/-! ### Data model (`src/ingestor/models.py` dataclasses in `parser.py`) -/

/-- One entry of `FingerprintSample.values`: `{"score": ..., "nbpk": ...}`. -/
structure FingerEntry where
  score : Option Int
  nbpk : Option Int
deriving Repr, DecidableEq

/-- `FingerprintSample` dataclass. -/
structure FingerprintSample where
  sample_id : Int
  sample_type : Option String
  values : List (String × FingerEntry)
deriving Repr, DecidableEq

/-- `BiometricsRecord` dataclass.  `extra` values are always the raw token
value strings in `parse_line`, so the `Any` is modelled as `String`. -/
structure BiometricsRecord where
  rq_type : String
  re_id : String
  status_code : Option Int := none
  face_sample_id : Option Int := none
  face_sample_type : Option String := none
  face_score : Option Int := none
  iris_sample_id : Option Int := none
  left_eye_score : Option Int := none
  right_eye_score : Option Int := none
  raw : Option String := none
  extra : List (String × String) := []
  fingerprint_samples : List FingerprintSample := []
deriving Repr, DecidableEq

/-! ### The parser (`parse_line`) -/

/-- `finger_keys` in `parse_line`. -/
def finger_keys : List (String × String) :=
  [("RightThumb", "right_thumb"), ("RightIndex", "right_index"),
   ("RightMiddle", "right_middle"), ("RightRing", "right_ring"),
   ("RightLittle", "right_little"), ("LeftThumb", "left_thumb"),
   ("LeftIndex", "left_index"), ("LeftMiddle", "left_middle"),
   ("LeftRing", "left_ring"), ("LeftLittle", "left_little")]

/-- `key in finger_keys` with lookup of the mapped name. -/
def fingerKeyLookup (k : String) : Option String :=
  alGet finger_keys k

/-- `handled_keys` in `parse_line`. -/
def handled_keys : List String :=
  ["RqType", "ReId", "FaceSampleId", "SampleType", "Face", "IrisSampleId",
   "LeftEye", "RightEye", "FingerprintSampleId", "nbpk"] ++
  finger_keys.map Prod.fst

/-- The local variables of `parse_line`'s token loop.  In the Python code
`current_fp` is an alias of the most recently appended element of
`fingerprint_samples` (it is set exactly when appending and never cleared),
so the list is kept in reverse order with the current group at the head:
`current_fp is None` iff `fps_rev = []`. -/
structure ParseState where
  rq_type : String := ""
  primary_re_id : Option String := none
  status_code : Option Int := none
  face_sample_id : Option Int := none
  face_sample_type : Option String := none
  face_score : Option Int := none
  iris_sample_id : Option Int := none
  left_eye_score : Option Int := none
  right_eye_score : Option Int := none
  fps_rev : List FingerprintSample := []
  extra : List (String × String) := []
deriving Repr, DecidableEq

/-- Mutation of `current_fp.values[finger_name]` (a no-op is impossible in
the source since the branch requires `current_fp is not None`). -/
def updCurFinger (s : ParseState) (name : String) (e : FingerEntry) :
    ParseState :=
  match s.fps_rev with
  | [] => s
  | fp :: rest => { s with fps_rev := { fp with values := alSet fp.values name e } :: rest }

/-- Mutation of `current_fp.sample_type`. -/
def setCurSampleType (s : ParseState) (v : String) : ParseState :=
  match s.fps_rev with
  | [] => s
  | fp :: rest => { s with fps_rev := { fp with sample_type := some v } :: rest }

/-- `sample_type` of the current fingerprint group, if a group is open. -/
def curSampleType (s : ParseState) : Option String :=
  match s.fps_rev with
  | [] => none
  | fp :: _ => fp.sample_type

/-- The `nbpk` lookahead of the fingerprint-score branch: the value of the
next token when it is an `nbpk=` token. -/
def nbpkPeek (next : Option String) : Option Int :=
  match next with
  | some nt => if hasEq nt ∧ keyOf nt = "nbpk" then pyInt (valOf nt) else none
  | none => none

/-- The effect a single token has on the loop state: one constructor per
assignment performed by a branch of `parse_line`'s token loop, plus `skip`
for branches that assign nothing (no `=` in the token, unparsable numeric
values, guards not met, handled keys). -/
inductive TokAction where
  | skip
  | setRqType (v : String)
  | setPrimary (v : String)
  | setStatus (code : Int)
  | setFaceSampleId (n : Int)
  | setFaceSampleType (v : String)
  | setFaceScore (n : Int)
  | setIrisSampleId (n : Int)
  | setLeftEye (n : Int)
  | setRightEye (n : Int)
  | newFingerprint (sid : Int)
  | setFpSampleType (v : String)
  | setFinger (name : String) (e : FingerEntry)
  | setExtra (k v : String)
deriving Repr, DecidableEq

/-- The branch dispatch of the `while i < len(tokens)` loop of
`parse_line`, for token `t` with lookahead token `next`: the conditions
appear in source order and each branch returns the assignment it
performs. -/
def classifyTok (s : ParseState) (t : String) (next : Option String) :
    TokAction :=
  if hasEq t = false then .skip
  else if keyOf t = "RqType" then .setRqType (valOf t)
  else if keyOf t = "ReId" then
    match s.primary_re_id with
    | none => .setPrimary (valOf t)
    | some _ =>
      match pyInt (valOf t) with
      | some code => if code < 0 then .setStatus code else .skip
      | none => .skip
  else if keyOf t = "FaceSampleId" then
    match pyInt (valOf t) with
    | some n => .setFaceSampleId n
    | none => .skip
  else if keyOf t = "SampleType" ∧ s.fps_rev = [] ∧ s.face_sample_type = none then
    .setFaceSampleType (valOf t)
  else if keyOf t = "Face" then
    match pyInt (valOf t) with
    | some n => .setFaceScore n
    | none => .skip
  else if keyOf t = "IrisSampleId" then
    match pyInt (valOf t) with
    | some n => .setIrisSampleId n
    | none => .skip
  else if keyOf t = "LeftEye" then
    match pyInt (valOf t) with
    | some n => .setLeftEye n
    | none => .skip
  else if keyOf t = "RightEye" then
    match pyInt (valOf t) with
    | some n => .setRightEye n
    | none => .skip
  else if keyOf t = "FingerprintSampleId" then
    .newFingerprint ((pyInt (valOf t)).getD (-1))
  else if keyOf t = "SampleType" ∧ s.fps_rev ≠ [] ∧ curSampleType s = none then
    .setFpSampleType (valOf t)
  else
    match fingerKeyLookup (keyOf t), s.fps_rev with
    | some name, _ :: _ => .setFinger name ⟨pyInt (valOf t), nbpkPeek next⟩
    | _, _ =>
      if handled_keys.contains (keyOf t) then .skip
      else .setExtra (keyOf t) (valOf t)

/-- The assignment performed by each branch body of the token loop. -/
def applyTok (s : ParseState) : TokAction → ParseState
  | .skip => s
  | .setRqType v => { s with rq_type := v }
  | .setPrimary v => { s with primary_re_id := some v }
  | .setStatus code => { s with status_code := some code }
  | .setFaceSampleId n => { s with face_sample_id := some n }
  | .setFaceSampleType v => { s with face_sample_type := some v }
  | .setFaceScore n => { s with face_score := some n }
  | .setIrisSampleId n => { s with iris_sample_id := some n }
  | .setLeftEye n => { s with left_eye_score := some n }
  | .setRightEye n => { s with right_eye_score := some n }
  | .newFingerprint sid =>
      { s with fps_rev :=
          { sample_id := sid, sample_type := none, values := [] } :: s.fps_rev }
  | .setFpSampleType v => setCurSampleType s v
  | .setFinger name e => updCurFinger s name e
  | .setExtra k v => { s with extra := alSet s.extra k v }

/-- One iteration of the `while i < len(tokens)` loop of `parse_line` for
the token `t`, given the following token `next` (the `tokens[i + 1]`
lookahead of the fingerprint-score branch): dispatch, then perform the
branch's assignment. -/
def stepTok (s : ParseState) (t : String) (next : Option String) : ParseState :=
  applyTok s (classifyTok s t next)

/-- The `while i < len(tokens)` loop of `parse_line`.  The source consumes
a following `nbpk=` token inside the fingerprint-score branch (`i += 1`);
here the `nbpk=` token is peeked at but left in the stream, which yields
the same state because a standalone `nbpk=` token matches no branch and is
in `handled_keys`, hence is a no-op, and keeps the recursion structural. -/
def processTokens : ParseState → List String → ParseState
  | s, [] => s
  | s, t :: rest => processTokens (stepTok s t rest.head?) rest

/-- The eight key spellings that select a dedicated non-`SampleType`
branch of the token loop (used to state which keys a fall-through token
cannot have). -/
def specialKeys : List String :=
  ["RqType", "ReId", "FaceSampleId", "Face", "IrisSampleId", "LeftEye",
   "RightEye", "FingerprintSampleId"]

/-- The fingerprint-group sample id contributed by one token: the parsed
value of a `FingerprintSampleId=` token with sentinel `-1`, nothing for
any other token. -/
def fpIdOfTok (t : String) : Option Int :=
  if hasEq t ∧ keyOf t = "FingerprintSampleId" then
    some ((pyInt (valOf t)).getD (-1))
  else none

/-- The values of the `ReId=` tokens of a token list, in order. -/
def reIdVals (ts : List String) : List String :=
  ts.filterMap (fun t =>
    if hasEq t ∧ keyOf t = "ReId" then some (valOf t) else none)

/-- Folding subsequent `ReId` values into a status code: a value that
parses to a negative integer overwrites the accumulator, anything else is
discarded. -/
def statusFold (c : Option Int) (vs : List String) : Option Int :=
  vs.foldl
    (fun acc v =>
      match pyInt v with
      | some n => if n < 0 then some n else acc
      | none => acc) c

/-- Invariant of the loop state: every fingerprint group maps each finger
name at most once, and only to one of the ten canonical names. -/
def ValuesOk (s : ParseState) : Prop :=
  ∀ fp ∈ s.fps_rev, (fp.values.map Prod.fst).Nodup ∧
    ∀ k ∈ fp.values.map Prod.fst, k ∈ finger_keys.map Prod.snd

/-- `parse_line(line)`. -/
def parse_line (line : String) : BiometricsRecord :=
  let s := processTokens {} (pySplit line)
  { rq_type := s.rq_type
    re_id := s.primary_re_id.getD ""
    status_code := s.status_code
    face_sample_id := s.face_sample_id
    face_sample_type := s.face_sample_type
    face_score := s.face_score
    iris_sample_id := s.iris_sample_id
    left_eye_score := s.left_eye_score
    right_eye_score := s.right_eye_score
    raw := some (rstripNl line)
    extra := s.extra
    fingerprint_samples := s.fps_rev.reverse }

/-- Sanity check: a fully regular IP line parses as expected. -/
theorem parse_line_sample_regular :
    parse_line "RqType=IP ReId=43 FaceSampleId=1 SampleType=STILL Face=200 IrisSampleId=1 LeftEye=84 RightEye=85" =
    { rq_type := "IP", re_id := "43", face_sample_id := some 1,
      face_sample_type := some "STILL", face_score := some 200,
      iris_sample_id := some 1, left_eye_score := some 84,
      right_eye_score := some 85,
      raw := some "RqType=IP ReId=43 FaceSampleId=1 SampleType=STILL Face=200 IrisSampleId=1 LeftEye=84 RightEye=85" } := by
  decide

/-- Sanity check: status codes, fingerprint groups, nbpk consumption,
finger overwrite and extra keys. -/
theorem parse_line_sample_finger :
    parse_line "RqType=IP ReId=5 ReId=-7 FingerprintSampleId=2 SampleType=SLAP RightThumb=91 nbpk=33 RightThumb=90 Foo=bar" =
    { rq_type := "IP", re_id := "5", status_code := some (-7),
      raw := some "RqType=IP ReId=5 ReId=-7 FingerprintSampleId=2 SampleType=SLAP RightThumb=91 nbpk=33 RightThumb=90 Foo=bar",
      extra := [("Foo", "bar")],
      fingerprint_samples :=
        [{ sample_id := 2, sample_type := some "SLAP",
           values := [("right_thumb", ⟨some 90, none⟩)] }] } := by
  decide

/-! ### Dates (`datetime.date` as used by collector.py and db.py) -/

/-- A calendar date as produced by `date.fromisoformat` /
`datetime.strptime(..., "%Y-%m-%d").date()`. -/
structure PyDate where
  year : Nat
  month : Nat
  day : Nat
deriving Repr, DecidableEq

/-- Gregorian leap year. -/
def isLeap (y : Nat) : Bool :=
  y % 4 = 0 && (y % 100 ≠ 0 || y % 400 = 0)

/-- Days in a month. -/
def daysInMonth (y m : Nat) : Nat :=
  if m = 2 then (if isLeap y then 29 else 28)
  else if m = 4 ∨ m = 6 ∨ m = 9 ∨ m = 11 then 30
  else 31

/-- Validity check of `datetime.date(y, m, d)` (year in `1..9999`). -/
def mkValidDate (y m d : Nat) : Option PyDate :=
  if 1 ≤ y ∧ y ≤ 9999 ∧ 1 ≤ m ∧ m ≤ 12 ∧ 1 ≤ d ∧ d ≤ daysInMonth y m then
    some ⟨y, m, d⟩
  else none

/-- `d1 < d2` on dates (lexicographic on year, month, day). -/
def dateLt (d1 d2 : PyDate) : Bool :=
  d1.year < d2.year ||
    (d1.year = d2.year &&
      (d1.month < d2.month || (d1.month = d2.month && d1.day < d2.day)))

/-- Whether the first 10 characters of `cs` match the regular expression
`\d{4}-\d{2}-\d{2}`, returning year/month/day digit groups. -/
def matchDate10 (cs : List Char) : Option (Nat × Nat × Nat) :=
  match cs with
  | y1 :: y2 :: y3 :: y4 :: '-' :: m1 :: m2 :: '-' :: d1 :: d2 :: _ =>
      if [y1, y2, y3, y4, m1, m2, d1, d2].all Char.isDigit then
        some (digitsVal [y1, y2, y3, y4], digitsVal [m1, m2], digitsVal [d1, d2])
      else none
  | _ => none

/-- Leftmost match of `re.search(r"(\d{4}-\d{2}-\d{2})", ...)`. -/
def findDateGroups : List Char → Option (Nat × Nat × Nat)
  | [] => none
  | c :: cs =>
      match matchDate10 (c :: cs) with
      | some g => some g
      | none => findDateGroups cs

/-- `collector._extract_file_date` and `db._extract_date_from_filename`:
search the filename for a `YYYY-MM-DD` group and validate it as a date
(both `strptime("%Y-%m-%d")` and `date.fromisoformat` reject impossible
dates such as month 13 or day 32 with `ValueError` → `none`). -/
def _extract_file_date (filename : String) : Option PyDate :=
  match findDateGroups filename.toList with
  | none => none
  | some (y, m, d) => mkValidDate y m d

/-- `db._extract_date_from_filename`, including its `if not filename` guard
over an optional argument. -/
def _extract_date_from_filename (filename : Option String) : Option PyDate :=
  match filename with
  | none => none
  | some f => if f = "" then none else _extract_file_date f

/-! ### Fact rows (`src/ingestor/db.py`) -/

/-- `FINGER_CHANNEL_MAP` in db.py. -/
def FINGER_CHANNEL_MAP : List (String × String) :=
  [("right_thumb", "RIGHT_THUMB"), ("right_index", "RIGHT_INDEX"),
   ("right_middle", "RIGHT_MIDDLE"), ("right_ring", "RIGHT_RING"),
   ("right_little", "RIGHT_LITTLE"), ("left_thumb", "LEFT_THUMB"),
   ("left_index", "LEFT_INDEX"), ("left_middle", "LEFT_MIDDLE"),
   ("left_ring", "LEFT_RING"), ("left_little", "LEFT_LITTLE")]

/-- A `BiometricScore` row as constructed by `_record_to_biometric_scores`
(the database-generated `id` and `created_at` columns are omitted). -/
structure BiometricScore where
  re_id : String
  re_code : Option Int
  rq_type : String
  log_date : Option PyDate
  server_name : Option String
  source_file : Option String
  modality : String
  channel : String
  sample_id : Option Int
  sample_type : Option String
  score : Option Int
  nbpk : Option Int
  raw_line : Option String
deriving Repr, DecidableEq

/-- The `# Face` block of `_record_to_biometric_scores`: one FACE row when
`face_score` is set. -/
def faceRowsOf (record : BiometricsRecord)
    (server_name source_file : Option String) (log_date : Option PyDate) :
    List BiometricScore :=
  match record.face_score with
  | none => []
  | some sc =>
      [{ re_id := record.re_id, re_code := record.status_code,
         rq_type := record.rq_type, log_date := log_date,
         server_name := server_name, source_file := source_file,
         modality := "FACE", channel := "FACE",
         sample_id := record.face_sample_id,
         sample_type := record.face_sample_type,
         score := some sc, nbpk := none, raw_line := record.raw }]

/-- The left-eye half of the `# Iris` block: one IRIS/LEFT_EYE row when
`left_eye_score` is set. -/
def leftEyeRowsOf (record : BiometricsRecord)
    (server_name source_file : Option String) (log_date : Option PyDate) :
    List BiometricScore :=
  match record.left_eye_score with
  | none => []
  | some sc =>
      [{ re_id := record.re_id, re_code := record.status_code,
         rq_type := record.rq_type, log_date := log_date,
         server_name := server_name, source_file := source_file,
         modality := "IRIS", channel := "LEFT_EYE",
         sample_id := record.iris_sample_id, sample_type := none,
         score := some sc, nbpk := none, raw_line := record.raw }]

/-- The right-eye half of the `# Iris` block: one IRIS/RIGHT_EYE row when
`right_eye_score` is set. -/
def rightEyeRowsOf (record : BiometricsRecord)
    (server_name source_file : Option String) (log_date : Option PyDate) :
    List BiometricScore :=
  match record.right_eye_score with
  | none => []
  | some sc =>
      [{ re_id := record.re_id, re_code := record.status_code,
         rq_type := record.rq_type, log_date := log_date,
         server_name := server_name, source_file := source_file,
         modality := "IRIS", channel := "RIGHT_EYE",
         sample_id := record.iris_sample_id, sample_type := none,
         score := some sc, nbpk := none, raw_line := record.raw }]

/-- The `# Empreintes` block: one FINGER row per finger entry of each
group whose name maps to a channel (`if not channel: continue` skips
unmapped names; the `isinstance(finger_data, dict)` guard is always true
in the typed embedding). -/
def fingerRowsOf (record : BiometricsRecord)
    (server_name source_file : Option String) (log_date : Option PyDate) :
    List BiometricScore :=
  (record.fingerprint_samples.map (fun fp =>
    fp.values.filterMap (fun p =>
      match alGet FINGER_CHANNEL_MAP p.1 with
      | none => none
      | some channel =>
          some { re_id := record.re_id, re_code := record.status_code,
                 rq_type := record.rq_type, log_date := log_date,
                 server_name := server_name, source_file := source_file,
                 modality := "FINGER", channel := channel,
                 sample_id := some fp.sample_id,
                 sample_type := fp.sample_type,
                 score := p.2.score, nbpk := p.2.nbpk,
                 raw_line := record.raw }))).flatten

/-- `_record_to_biometric_scores(record, server_name, source_file)`:
the face row, then the two iris rows, then the finger rows, in the order
the source appends them. -/
def _record_to_biometric_scores (record : BiometricsRecord)
    (server_name source_file : Option String) : List BiometricScore :=
  let log_date := _extract_date_from_filename source_file
  faceRowsOf record server_name source_file log_date ++
    leftEyeRowsOf record server_name source_file log_date ++
    rightEyeRowsOf record server_name source_file log_date ++
    fingerRowsOf record server_name source_file log_date

/-- Number of fact rows of a modality. -/
def countModality (rows : List BiometricScore) (m : String) : Nat :=
  (rows.filter (fun row => row.modality = m)).length

/-- Number of fact rows of a modality and channel. -/
def countChannel (rows : List BiometricScore) (m c : String) : Nat :=
  (rows.filter (fun row => row.modality = m ∧ row.channel = c)).length

/-- Whether some token of the list has the given key and an
integer-parseable value. -/
def hasParsableTok (k : String) (ts : List String) : Bool :=
  ts.any (fun t => hasEq t && (keyOf t == k) && (pyInt (valOf t)).isSome)

/-- `persist_records(settings, records, server_name, source_file)`, with the
database session modelled as the list of rows already in the table and an
`insertFails` flag standing for "some exception is raised during the bulk
insert".  On failure the transaction is rolled back (the table is unchanged)
and the exception is re-raised (`Except.error`); on success the rows are
appended and the row count returned. -/
def persist_records (table : List BiometricScore) (insertFails : Bool)
    (records : List BiometricsRecord)
    (server_name source_file : Option String) :
    Except Unit (List BiometricScore × Nat) :=
  let all_scores :=
    ((records.filter (fun r => r.rq_type = "IP")).map
      (fun r => _record_to_biometric_scores r server_name source_file)).flatten
  if all_scores = [] then Except.ok (table, 0)
  else if insertFails then Except.error ()
  else Except.ok (table ++ all_scores, all_scores.length)

/-! ### JSONL serialisation (`src/ingestor/processor.py`) -/

/-- The `"face"` sub-dictionary written by `_record_to_dict`.  The reader
accesses every field with `.get`, which conflates an absent key with a
`null` value, so optional fields model both. -/
structure FaceDict where
  sample_id : Option Int
  sample_type : Option String
  score : Option Int
deriving Repr, DecidableEq

/-- The `"iris"` sub-dictionary written by `_record_to_dict`. -/
structure IrisDict where
  sample_id : Option Int
  left : Option Int
  right : Option Int
deriving Repr, DecidableEq

/-- One element of the `"fingerprints"` list.  `sample_id` is read with
`.get("sample_id", 0)` and `fingers` with `.get("fingers", {})`, so absence
is conflated with the respective default on the way back. -/
structure FpDict where
  sample_id : Option Int
  sample_type : Option String
  fingers : List (String × FingerEntry)
deriving Repr, DecidableEq

/-- The dictionary produced by `_record_to_dict`.  `rq_type` and `re_id`
are always present; each remaining field is `none` when its key is absent
(for `re_code` and `raw_line` this also conflates a `null` value, exactly
as the reader's `.get` does). -/
structure RecordDict where
  rq_type : String
  re_id : String
  re_code : Option Int := none
  raw_line : Option String := none
  face : Option FaceDict := none
  iris : Option IrisDict := none
  fingerprints : Option (List FpDict) := none
  extra : Option (List (String × String)) := none
deriving Repr, DecidableEq

/-- `_record_to_dict(record)`.  For non-IP records only `rq_type` and
`re_id` are written. -/
def _record_to_dict (record : BiometricsRecord) : RecordDict :=
  if record.rq_type ≠ "IP" then
    { rq_type := record.rq_type, re_id := record.re_id }
  else
    { rq_type := record.rq_type
      re_id := record.re_id
      re_code := record.status_code
      raw_line := record.raw
      face :=
        if record.face_sample_id ≠ none ∨ record.face_sample_type ≠ none ∨
            record.face_score ≠ none then
          some { sample_id := record.face_sample_id,
                 sample_type := record.face_sample_type,
                 score := record.face_score }
        else none
      iris :=
        if record.iris_sample_id ≠ none ∨ record.left_eye_score ≠ none ∨
            record.right_eye_score ≠ none then
          some { sample_id := record.iris_sample_id,
                 left := record.left_eye_score,
                 right := record.right_eye_score }
        else none
      fingerprints :=
        if record.fingerprint_samples ≠ [] then
          some (record.fingerprint_samples.map (fun fp =>
            { sample_id := some fp.sample_id, sample_type := fp.sample_type,
              fingers := fp.values }))
        else none
      extra := if record.extra ≠ [] then some record.extra else none }

/-- `_dict_to_record(data)`. -/
def _dict_to_record (data : RecordDict) : BiometricsRecord :=
  let base : BiometricsRecord :=
    { rq_type := data.rq_type, re_id := data.re_id,
      status_code := data.re_code, raw := data.raw_line }
  let r1 :=
    match data.face with
    | none => base
    | some f =>
        { base with face_sample_id := f.sample_id,
                    face_sample_type := f.sample_type,
                    face_score := f.score }
  let r2 :=
    match data.iris with
    | none => r1
    | some ir =>
        { r1 with iris_sample_id := ir.sample_id,
                  left_eye_score := ir.left,
                  right_eye_score := ir.right }
  let r3 :=
    match data.fingerprints with
    | none => r2
    | some fps =>
        { r2 with fingerprint_samples :=
            fps.map (fun f =>
              { sample_id := f.sample_id.getD 0,
                sample_type := f.sample_type,
                values := f.fingers }) }
  match data.extra with
  | none => r3
  | some e => { r3 with extra := e }

/-! ### Processing state ledger (`src/ingestor/state.py`) -/

/-- A row of the `processed_files` SQLite table (keyed by
`(server_name, filename)`). -/
structure ProcessedFileRow where
  file_date : Option String
  first_seen_at : String
  last_processed_at : String
  hash_sha256 : Option String
deriving Repr, DecidableEq

/-- A row of the `persisted_jsonl_files` SQLite table (keyed by
`jsonl_path`). -/
structure PersistedJsonlRow where
  server_name : Option String
  source_file : Option String
  rows_inserted : Option Int
  first_persisted_at : String
  last_persisted_at : String
deriving Repr, DecidableEq

/-- `mark_file_processed`: upsert into `processed_files`.  The current
timestamp `datetime.utcnow()` is passed explicitly as `now`.  On a
primary-key conflict the SQL updates `file_date`, `last_processed_at` and
`hash_sha256` from the excluded row and leaves `first_seen_at` as stored. -/
def mark_file_processed (tbl : List ((String × String) × ProcessedFileRow))
    (server_name filename : String)
    (file_date hash_sha256 : Option String) (now : String) :
    List ((String × String) × ProcessedFileRow) :=
  match alGet tbl (server_name, filename) with
  | some row =>
      alSet tbl (server_name, filename)
        { file_date := file_date, first_seen_at := row.first_seen_at,
          last_processed_at := now, hash_sha256 := hash_sha256 }
  | none =>
      tbl ++ [((server_name, filename),
        { file_date := file_date, first_seen_at := now,
          last_processed_at := now, hash_sha256 := hash_sha256 })]

/-- `mark_jsonl_persisted`: upsert into `persisted_jsonl_files`.  On a
primary-key conflict the SQL updates everything except
`first_persisted_at`. -/
def mark_jsonl_persisted (tbl : List (String × PersistedJsonlRow))
    (jsonl_path : String) (server_name source_file : Option String)
    (rows_inserted : Option Int) (now : String) :
    List (String × PersistedJsonlRow) :=
  match alGet tbl jsonl_path with
  | some row =>
      alSet tbl jsonl_path
        { server_name := server_name, source_file := source_file,
          rows_inserted := rows_inserted,
          first_persisted_at := row.first_persisted_at,
          last_persisted_at := now }
  | none =>
      tbl ++ [(jsonl_path,
        { server_name := server_name, source_file := source_file,
          rows_inserted := rows_inserted, first_persisted_at := now,
          last_persisted_at := now })]

/-! ### Per-file persistence flow (`persist_all_jsonl_files`) -/

/-- The state touched by one iteration of the `persist_all_jsonl_files`
loop, for a single JSONL file. -/
structure JsonlFlowState where
  inOutputDir : Bool
  archived : Bool
  ledger : List (String × PersistedJsonlRow)
  table : List BiometricScore
deriving Repr, DecidableEq

/-- One iteration of the loop in `persist_all_jsonl_files`, for a file at
`jsonl_path` whose parsed lines (already filtered to `rq_type = "IP"` by the
reading loop) are `records`.  `alreadyPersisted` models
`is_jsonl_already_persisted`; `insertFails` models an exception during the
bulk insert.  Returns the new state and the number of rows this iteration
added to `total_rows_inserted`.  On a persistence failure the exception is
caught, nothing is ledger-marked and the file is not archived. -/
def processOneJsonl (st : JsonlFlowState) (jsonl_path : String)
    (alreadyPersisted : Bool) (records : List BiometricsRecord)
    (server_name : Option String) (source_file : String) (now : String)
    (insertFails : Bool) : JsonlFlowState × Nat :=
  if alreadyPersisted then
    ({ st with inOutputDir := false, archived := true }, 0)
  else
    let ipRecords := records.filter (fun r => r.rq_type = "IP")
    if ipRecords = [] then
      ({ st with inOutputDir := false, archived := true }, 0)
    else
      match persist_records st.table insertFails ipRecords server_name
          (some source_file) with
      | Except.error _ => (st, 0)
      | Except.ok (table2, n) =>
          ({ st with
               table := table2,
               ledger := mark_jsonl_persisted st.ledger jsonl_path
                 server_name (some source_file) (some (n : Int)) now,
               inOutputDir := false, archived := true }, n)

/-! ### Collection (`src/ingestor/collector.py`) -/

/-- A raised Python exception, named by the kind and detail. -/
inductive PyError
  | nameError (varName : String)
deriving Repr, DecidableEq

/-- `filename.lower().endswith(".log")`: the last four lowercased
characters are `.log`. -/
def endsWithLogLower (filename : String) : Bool :=
  (filename.toList.map Char.toLower).reverse.take 4 = ['g', 'o', 'l', '.']

/-- One iteration of the `sftp.listdir_attr` loop in
`_collect_from_server`, up to the point it can decide the entry.  The
function body references `threshold` (and later `settings`), names that are
local to `collect_from_servers` and are neither parameters nor globals of
`collector.py`; Python therefore raises `NameError` as soon as the line
`if file_date > threshold:` is reached, which happens exactly when the
entry has a `.log` suffix and a parseable embedded date.  `Except.ok true`
would mean "download this entry"; it is unreachable. -/
def collectEntryStep (filename : String) : Except PyError Bool :=
  if ¬ endsWithLogLower filename then Except.ok false
  else
    match _extract_file_date filename with
    | none => Except.ok false
    | some _ => Except.error (PyError.nameError "threshold")

/-- `_collect_from_server` restricted to its directory-listing loop: fold
over the remote entries, counting downloads, aborting with the first raised
exception. -/
def _collect_from_server (listing : List String) : Except PyError Nat :=
  listing.foldl
    (fun acc fn =>
      acc.bind (fun n => (collectEntryStep fn).map (fun b => if b then n + 1 else n)))
    (Except.ok 0)

/-- Modelled from the spec: the filename filter that `_collect_from_server`
was meant to apply.  The code computes `threshold = today - timedelta(days=1)`
in `collect_from_servers` but never passes it to `_collect_from_server`,
where it is used; this definition follows the spec's words: keep
`.log`-suffixed names whose embedded `YYYY-MM-DD` date is on or before
yesterday (the `threshold`), skipping names with no parseable date and
names dated today or later. -/
def spec_collect_filter (threshold : PyDate) (filename : String) : Bool :=
  endsWithLogLower filename &&
    match _extract_file_date filename with
    | none => false
    | some d => ¬ dateLt threshold d

/-! ## Dictionary lemmas -/

theorem alGet_alSet_self {κ α : Type} [DecidableEq κ] (m : List (κ × α))
    (k : κ) (v : α) : alGet (alSet m k v) k = some v := by
  induction m with
  | nil => simp [alSet, alGet]
  | cons p m ih =>
      by_cases hpk : p.1 = k
      · simp [alSet, hpk, alGet]
      · simpa [alSet, hpk, alGet, List.find?] using ih

theorem alGet_alSet_ne {κ α : Type} [DecidableEq κ] (m : List (κ × α))
    (k k' : κ) (v : α) (h : k' ≠ k) :
    alGet (alSet m k v) k' = alGet m k' := by
  have hkk : ¬k = k' := fun e => h e.symm
  induction m with
  | nil => simp [alSet, alGet, List.find?, hkk]
  | cons p m ih =>
      by_cases hpk : p.1 = k
      · subst hpk
        simp [alSet, alGet, List.find?, hkk]
      · by_cases hpk' : p.1 = k'
        · subst hpk'
          simp [alSet, hpk, alGet, List.find?]
        · simpa [alSet, hpk, alGet, List.find?, hpk'] using ih

theorem alSet_keys {κ α : Type} [DecidableEq κ] (m : List (κ × α))
    (k : κ) (v : α) :
    (alSet m k v).map Prod.fst =
      if k ∈ m.map Prod.fst then m.map Prod.fst else m.map Prod.fst ++ [k] := by
  induction m with
  | nil => simp [alSet]
  | cons p m ih =>
      by_cases hpk : p.1 = k
      · simp [alSet, hpk]
      · by_cases hk : k ∈ m.map Prod.fst <;>
          simp [alSet, hpk, ih, hk, Ne.symm hpk]

/-! ## C8: ledger upserts keep the first-seen timestamps -/

/-- C8: for a ledger key that already has an entry, `mark_file_processed`
overwrites `file_date`, `last_processed_at` and `hash_sha256` but keeps
`first_seen_at`, and `mark_jsonl_persisted` overwrites `server_name`,
`source_file`, `rows_inserted` and `last_persisted_at` but keeps
`first_persisted_at`; for a key with no prior entry, the first timestamp is
set to the current time `now`. -/
theorem claim_C8
    (ptbl : List ((String × String) × ProcessedFileRow))
    (jtbl : List (String × PersistedJsonlRow))
    (sn fn : String) (fd hs : Option String)
    (jp : String) (jsn jsf : Option String) (ri : Option Int)
    (now : String) :
    (∀ row, alGet ptbl (sn, fn) = some row →
      alGet (mark_file_processed ptbl sn fn fd hs now) (sn, fn) =
        some { file_date := fd, first_seen_at := row.first_seen_at,
               last_processed_at := now, hash_sha256 := hs }) ∧
    (alGet ptbl (sn, fn) = none →
      alGet (mark_file_processed ptbl sn fn fd hs now) (sn, fn) =
        some { file_date := fd, first_seen_at := now,
               last_processed_at := now, hash_sha256 := hs }) ∧
    (∀ row, alGet jtbl jp = some row →
      alGet (mark_jsonl_persisted jtbl jp jsn jsf ri now) jp =
        some { server_name := jsn, source_file := jsf, rows_inserted := ri,
               first_persisted_at := row.first_persisted_at,
               last_persisted_at := now }) ∧
    (alGet jtbl jp = none →
      alGet (mark_jsonl_persisted jtbl jp jsn jsf ri now) jp =
        some { server_name := jsn, source_file := jsf, rows_inserted := ri,
               first_persisted_at := now, last_persisted_at := now }) := by
  refine ⟨fun row hrow => ?_, fun hnone => ?_, fun row hrow => ?_, fun hnone => ?_⟩
  · rw [mark_file_processed, hrow]
    exact alGet_alSet_self _ _ _
  · rw [mark_file_processed, hnone]
    induction ptbl with
    | nil => simp [alGet, List.find?]
    | cons p m ih =>
        rcases hget : alGet m (sn, fn) with _ | row2
        · have hp : ¬p.1 = (sn, fn) := by
            intro hp
            simp [alGet, List.find?, hp] at hnone
          simp only [List.cons_append]
          simpa [alGet, List.find?, hp] using ih (by
            simpa [alGet, List.find?, hp] using hnone)
        · exfalso
          have hp : ¬p.1 = (sn, fn) := by
            intro hp
            simp [alGet, List.find?, hp] at hnone
          rw [show alGet (p :: m) (sn, fn) = alGet m (sn, fn) by
            simp [alGet, List.find?, hp]] at hnone
          rw [hnone] at hget
          cases hget
  · rw [mark_jsonl_persisted, hrow]
    exact alGet_alSet_self _ _ _
  · rw [mark_jsonl_persisted, hnone]
    induction jtbl with
    | nil => simp [alGet, List.find?]
    | cons p m ih =>
        have hp : ¬p.1 = jp := by
          intro hp
          simp [alGet, List.find?, hp] at hnone
        simp only [List.cons_append]
        simpa [alGet, List.find?, hp] using ih (by
          simpa [alGet, List.find?, hp] using hnone)

/-- C8 witness: a fresh key gets `first_seen_at = now`, and marking the
same key again with a later timestamp keeps it. -/
theorem claim_C8_witness :
    (∀ row, alGet ([] : List ((String × String) × ProcessedFileRow)) ("srv", "a.log") = some row →
      alGet (mark_file_processed [] "srv" "a.log" (some "2026-10-10") none "t2") ("srv", "a.log") =
        some { file_date := some "2026-10-10", first_seen_at := row.first_seen_at,
               last_processed_at := "t2", hash_sha256 := none }) ∧
    (alGet ([] : List ((String × String) × ProcessedFileRow)) ("srv", "a.log") = none →
      alGet (mark_file_processed [] "srv" "a.log" (some "2026-10-10") none "t2") ("srv", "a.log") =
        some { file_date := some "2026-10-10", first_seen_at := "t2",
               last_processed_at := "t2", hash_sha256 := none }) ∧
    (∀ row, alGet [("p.jsonl",
          ({ server_name := none, source_file := none, rows_inserted := none,
             first_persisted_at := "t0", last_persisted_at := "t0" } :
            PersistedJsonlRow))] "p.jsonl" = some row →
      alGet (mark_jsonl_persisted
          [("p.jsonl",
            { server_name := none, source_file := none, rows_inserted := none,
              first_persisted_at := "t0", last_persisted_at := "t0" })]
          "p.jsonl" (some "srv") (some "a.log") (some 7) "t2") "p.jsonl" =
        some { server_name := some "srv", source_file := some "a.log",
               rows_inserted := some 7,
               first_persisted_at := row.first_persisted_at,
               last_persisted_at := "t2" }) ∧
    (alGet [("p.jsonl",
          ({ server_name := none, source_file := none, rows_inserted := none,
             first_persisted_at := "t0", last_persisted_at := "t0" } :
            PersistedJsonlRow))] "p.jsonl" = none →
      alGet (mark_jsonl_persisted
          [("p.jsonl",
            { server_name := none, source_file := none, rows_inserted := none,
              first_persisted_at := "t0", last_persisted_at := "t0" })]
          "p.jsonl" (some "srv") (some "a.log") (some 7) "t2") "p.jsonl" =
        some { server_name := some "srv", source_file := some "a.log",
               rows_inserted := some 7, first_persisted_at := "t2",
               last_persisted_at := "t2" }) :=
  claim_C8 []
    [("p.jsonl",
      { server_name := none, source_file := none, rows_inserted := none,
        first_persisted_at := "t0", last_persisted_at := "t0" })]
    "srv" "a.log" (some "2026-10-10") none "p.jsonl" (some "srv")
    (some "a.log") (some 7) "t2"

/-! ## C2: the collector date filter -/

/-- C2 (code bug): `_collect_from_server` uses the names `threshold` and
`settings`, which are local variables of `collect_from_servers` and are
neither parameters nor module globals, so any listed entry with a `.log`
suffix and a parseable `YYYY-MM-DD` date makes the function raise
`NameError` at `if file_date > threshold:` — it can never download a dated
file, while entries without a parseable date are skipped as specified.  The
spec-modelled filter (`threshold` = yesterday) would instead accept the
yesterday-dated file and reject today's. -/
theorem claim_C2 :
    collectEntryStep "readme.txt" = Except.ok false ∧
    collectEntryStep "quality.log" = Except.ok false ∧
    collectEntryStep "quality.2026-10-11.log" =
      Except.error (PyError.nameError "threshold") ∧
    collectEntryStep "quality.2026-10-12.log" =
      Except.error (PyError.nameError "threshold") ∧
    _collect_from_server ["readme.txt", "quality.log", "quality.2026-10-11.log"] =
      Except.error (PyError.nameError "threshold") ∧
    spec_collect_filter ⟨2026, 10, 11⟩ "quality.2026-10-11.log" = true ∧
    spec_collect_filter ⟨2026, 10, 11⟩ "quality.2026-10-12.log" = false ∧
    spec_collect_filter ⟨2026, 10, 11⟩ "quality.log" = false := by
  decide

/-! ## C7: persistence inserts only IP rows; failures roll back and skip
archiving -/

/-- C7: `persist_records` builds fact rows only from records with
`rq_type = "IP"` (dropping non-IP records changes nothing) and on success
returns exactly the number of rows appended to the table; when the bulk
insert raises, the table is rolled back unchanged and the error is
re-raised, and the `persist_all_jsonl_files` iteration then neither
ledger-marks nor archives the JSONL file, leaving its state untouched. -/
theorem claim_C7 (table : List BiometricScore)
    (records : List BiometricsRecord) (sn : Option String)
    (sf jsonl_path now : String) (st : JsonlFlowState) (fails : Bool)
    (hscores :
      ((records.filter (fun r => r.rq_type = "IP")).map
        (fun r => _record_to_biometric_scores r sn (some sf))).flatten ≠ []) :
    (persist_records table fails records sn (some sf) =
      persist_records table fails (records.filter (fun r => r.rq_type = "IP"))
        sn (some sf)) ∧
    (∀ t2 n, persist_records table fails records sn (some sf) =
        Except.ok (t2, n) →
      ∃ added, t2 = table ++ added ∧ n = added.length ∧
        added =
          ((records.filter (fun r => r.rq_type = "IP")).map
            (fun r => _record_to_biometric_scores r sn (some sf))).flatten) ∧
    (persist_records table true records sn (some sf) = Except.error ()) ∧
    (processOneJsonl st jsonl_path false records sn sf now true = (st, 0)) := by
  have hfilter :
      (records.filter (fun r => r.rq_type = "IP")).filter
          (fun r => r.rq_type = "IP") =
        records.filter (fun r => r.rq_type = "IP") := by
    simp [List.filter_filter]
  have herr : ∀ tbl : List BiometricScore,
      persist_records tbl true records sn (some sf) = Except.error () := by
    intro tbl
    simp only [persist_records]
    rw [if_neg hscores]
    simp
  refine ⟨?_, ?_, herr table, ?_⟩
  · simp only [persist_records, hfilter]
  · intro t2 n hok
    simp only [persist_records] at hok
    rw [if_neg hscores] at hok
    cases fails with
    | true => simp at hok
    | false =>
        simp only [Bool.false_eq_true, if_false, Except.ok.injEq,
          Prod.mk.injEq] at hok
        exact ⟨_, hok.1.symm, hok.2.symm, rfl⟩
  · have hip : records.filter (fun r => r.rq_type = "IP") ≠ [] := by
      intro hempty
      rw [hempty] at hscores
      simp at hscores
    have herr2 : persist_records st.table true
        (records.filter (fun r => r.rq_type = "IP")) sn (some sf) =
        Except.error () := by
      simp only [persist_records, hfilter]
      rw [if_neg hscores]
      simp
    simp only [processOneJsonl, Bool.false_eq_true, if_false, if_neg hip, herr2]

/-- C7 witness: one IP record with a face score; the bulk-insert failure
leaves the flow state untouched. -/
theorem claim_C7_witness :
    (persist_records [] true
        [{ rq_type := "IP", re_id := "1", face_score := some 9 }] none
        (some "f.log") =
      persist_records [] true
        ([{ rq_type := "IP", re_id := "1", face_score := some 9 }].filter
          (fun r => r.rq_type = "IP")) none (some "f.log")) ∧
    (∀ t2 n, persist_records [] true
          [{ rq_type := "IP", re_id := "1", face_score := some 9 }] none
          (some "f.log") = Except.ok (t2, n) →
      ∃ added, t2 = [] ++ added ∧ n = added.length ∧
        added =
          (([{ rq_type := "IP", re_id := "1", face_score := some 9 }].filter
              (fun r => r.rq_type = "IP")).map
            (fun r => _record_to_biometric_scores r none (some "f.log"))).flatten) ∧
    (persist_records [] true
        [{ rq_type := "IP", re_id := "1", face_score := some 9 }] none
        (some "f.log") = Except.error ()) ∧
    (processOneJsonl
        { inOutputDir := true, archived := false, ledger := [], table := [] }
        "f.log.jsonl" false
        [{ rq_type := "IP", re_id := "1", face_score := some 9 }] none
        "f.log" "t0" true =
      ({ inOutputDir := true, archived := false, ledger := [], table := [] }, 0)) :=
  claim_C7 [] [{ rq_type := "IP", re_id := "1", face_score := some 9 }] none
    "f.log" "f.log.jsonl" "t0"
    { inOutputDir := true, archived := false, ledger := [], table := [] }
    true (by decide)

/-! ## Parser step lemmas -/

/-- Exhaustive description of one loop iteration: exactly one branch of
`classifyTok` fires, with its guard conditions recorded. -/
theorem classifyTok_cases (s : ParseState) (t : String) (next : Option String) :
    (hasEq t = false ∧ classifyTok s t next = .skip) ∨
    (hasEq t = true ∧ keyOf t = "RqType" ∧
      classifyTok s t next = .setRqType (valOf t)) ∨
    (hasEq t = true ∧ keyOf t = "ReId" ∧ s.primary_re_id = none ∧
      classifyTok s t next = .setPrimary (valOf t)) ∨
    (hasEq t = true ∧ keyOf t = "ReId" ∧ (∃ p, s.primary_re_id = some p) ∧
      classifyTok s t next =
        (match pyInt (valOf t) with
         | some code => if code < 0 then TokAction.setStatus code else .skip
         | none => .skip)) ∨
    (hasEq t = true ∧ keyOf t = "FaceSampleId" ∧
      classifyTok s t next =
        (match pyInt (valOf t) with
         | some n => TokAction.setFaceSampleId n
         | none => .skip)) ∨
    (hasEq t = true ∧ keyOf t = "SampleType" ∧ s.fps_rev = [] ∧
      s.face_sample_type = none ∧
      classifyTok s t next = .setFaceSampleType (valOf t)) ∨
    (hasEq t = true ∧ keyOf t = "Face" ∧
      classifyTok s t next =
        (match pyInt (valOf t) with
         | some n => TokAction.setFaceScore n
         | none => .skip)) ∨
    (hasEq t = true ∧ keyOf t = "IrisSampleId" ∧
      classifyTok s t next =
        (match pyInt (valOf t) with
         | some n => TokAction.setIrisSampleId n
         | none => .skip)) ∨
    (hasEq t = true ∧ keyOf t = "LeftEye" ∧
      classifyTok s t next =
        (match pyInt (valOf t) with
         | some n => TokAction.setLeftEye n
         | none => .skip)) ∨
    (hasEq t = true ∧ keyOf t = "RightEye" ∧
      classifyTok s t next =
        (match pyInt (valOf t) with
         | some n => TokAction.setRightEye n
         | none => .skip)) ∨
    (hasEq t = true ∧ keyOf t = "FingerprintSampleId" ∧
      classifyTok s t next = .newFingerprint ((pyInt (valOf t)).getD (-1))) ∨
    (hasEq t = true ∧ keyOf t = "SampleType" ∧ s.fps_rev ≠ [] ∧
      curSampleType s = none ∧
      classifyTok s t next = .setFpSampleType (valOf t)) ∨
    (hasEq t = true ∧ keyOf t ∉ specialKeys ∧
      (∃ name, fingerKeyLookup (keyOf t) = some name ∧ s.fps_rev ≠ [] ∧
        classifyTok s t next = .setFinger name ⟨pyInt (valOf t), nbpkPeek next⟩)) ∨
    (hasEq t = true ∧ keyOf t ∉ specialKeys ∧
      handled_keys.contains (keyOf t) = true ∧ classifyTok s t next = .skip) ∨
    (hasEq t = true ∧ keyOf t ∉ specialKeys ∧
      handled_keys.contains (keyOf t) = false ∧
      classifyTok s t next = .setExtra (keyOf t) (valOf t)) := by
  by_cases h0 : hasEq t = false
  · exact Or.inl ⟨h0, by rw [classifyTok, if_pos h0]⟩
  have h0' : hasEq t = true := by simpa using h0
  rw [classifyTok, if_neg h0]
  by_cases h1 : keyOf t = "RqType"
  · exact Or.inr (Or.inl ⟨h0', h1, by rw [if_pos h1]⟩)
  rw [if_neg h1]
  by_cases h2 : keyOf t = "ReId"
  · rw [if_pos h2]
    rcases hp : s.primary_re_id with _ | p
    · exact Or.inr (Or.inr (Or.inl ⟨h0', h2, rfl, rfl⟩))
    · exact Or.inr (Or.inr (Or.inr (Or.inl ⟨h0', h2, ⟨p, rfl⟩, rfl⟩)))
  rw [if_neg h2]
  by_cases h3 : keyOf t = "FaceSampleId"
  · exact Or.inr (Or.inr (Or.inr (Or.inr (Or.inl ⟨h0', h3, by rw [if_pos h3]⟩))))
  rw [if_neg h3]
  by_cases h4 : keyOf t = "SampleType" ∧ s.fps_rev = [] ∧ s.face_sample_type = none
  · refine Or.inr (Or.inr (Or.inr (Or.inr (Or.inr (Or.inl
      ⟨h0', h4.1, h4.2.1, h4.2.2, by rw [if_pos h4]⟩)))))
  rw [if_neg h4]
  by_cases h5 : keyOf t = "Face"
  · exact Or.inr (Or.inr (Or.inr (Or.inr (Or.inr (Or.inr (Or.inl
      ⟨h0', h5, by rw [if_pos h5]⟩))))))
  rw [if_neg h5]
  by_cases h6 : keyOf t = "IrisSampleId"
  · exact Or.inr (Or.inr (Or.inr (Or.inr (Or.inr (Or.inr (Or.inr (Or.inl
      ⟨h0', h6, by rw [if_pos h6]⟩)))))))
  rw [if_neg h6]
  by_cases h7 : keyOf t = "LeftEye"
  · exact Or.inr (Or.inr (Or.inr (Or.inr (Or.inr (Or.inr (Or.inr (Or.inr (Or.inl
      ⟨h0', h7, by rw [if_pos h7]⟩))))))))
  rw [if_neg h7]
  by_cases h8 : keyOf t = "RightEye"
  · exact Or.inr (Or.inr (Or.inr (Or.inr (Or.inr (Or.inr (Or.inr (Or.inr (Or.inr (Or.inl
      ⟨h0', h8, by rw [if_pos h8]⟩)))))))))
  rw [if_neg h8]
  by_cases h9 : keyOf t = "FingerprintSampleId"
  · exact Or.inr (Or.inr (Or.inr (Or.inr (Or.inr (Or.inr (Or.inr (Or.inr (Or.inr (Or.inr (Or.inl
      ⟨h0', h9, by rw [if_pos h9]⟩))))))))))
  rw [if_neg h9]
  by_cases h10 : keyOf t = "SampleType" ∧ s.fps_rev ≠ [] ∧ curSampleType s = none
  · refine Or.inr (Or.inr (Or.inr (Or.inr (Or.inr (Or.inr (Or.inr (Or.inr (Or.inr (Or.inr (Or.inr (Or.inl
      ⟨h0', h10.1, h10.2.1, h10.2.2, by rw [if_pos h10]⟩)))))))))))
  rw [if_neg h10]
  have hns : keyOf t ∉ specialKeys := by
    intro hmem
    simp only [specialKeys, List.mem_cons, List.not_mem_nil, or_false] at hmem
    rcases hmem with h | h | h | h | h | h | h | h
    exacts [h1 h, h2 h, h3 h, h5 h, h6 h, h7 h, h8 h, h9 h]
  rcases hfl : fingerKeyLookup (keyOf t) with _ | name <;>
    rcases hfps : s.fps_rev with _ | ⟨fp, fps⟩ <;>
    dsimp only
  case neg.none.nil =>
    by_cases h11 : handled_keys.contains (keyOf t) = true
    · refine Or.inr (Or.inr (Or.inr (Or.inr (Or.inr (Or.inr (Or.inr (Or.inr (Or.inr (Or.inr (Or.inr (Or.inr (Or.inr (Or.inl
        ⟨h0', hns, h11, by rw [if_pos h11]⟩)))))))))))))
    · refine Or.inr (Or.inr (Or.inr (Or.inr (Or.inr (Or.inr (Or.inr (Or.inr (Or.inr (Or.inr (Or.inr (Or.inr (Or.inr (Or.inr
        ⟨h0', hns, by simpa using h11, by rw [if_neg h11]⟩)))))))))))))
  case neg.none.cons =>
    by_cases h11 : handled_keys.contains (keyOf t) = true
    · refine Or.inr (Or.inr (Or.inr (Or.inr (Or.inr (Or.inr (Or.inr (Or.inr (Or.inr (Or.inr (Or.inr (Or.inr (Or.inr (Or.inl
        ⟨h0', hns, h11, by rw [if_pos h11]⟩)))))))))))))
    · refine Or.inr (Or.inr (Or.inr (Or.inr (Or.inr (Or.inr (Or.inr (Or.inr (Or.inr (Or.inr (Or.inr (Or.inr (Or.inr (Or.inr
        ⟨h0', hns, by simpa using h11, by rw [if_neg h11]⟩)))))))))))))
  case neg.some.nil =>
    by_cases h11 : handled_keys.contains (keyOf t) = true
    · refine Or.inr (Or.inr (Or.inr (Or.inr (Or.inr (Or.inr (Or.inr (Or.inr (Or.inr (Or.inr (Or.inr (Or.inr (Or.inr (Or.inl
        ⟨h0', hns, h11, by rw [if_pos h11]⟩)))))))))))))
    · refine Or.inr (Or.inr (Or.inr (Or.inr (Or.inr (Or.inr (Or.inr (Or.inr (Or.inr (Or.inr (Or.inr (Or.inr (Or.inr (Or.inr
        ⟨h0', hns, by simpa using h11, by rw [if_neg h11]⟩)))))))))))))
  case neg.some.cons =>
    refine Or.inr (Or.inr (Or.inr (Or.inr (Or.inr (Or.inr (Or.inr (Or.inr (Or.inr (Or.inr (Or.inr (Or.inr (Or.inl
      ⟨h0', hns, name, rfl, by simp, rfl⟩))))))))))))


/-- `updCurFinger` only rewrites `fps_rev`. -/
theorem updCurFinger_shape (s : ParseState) (name : String) (e : FingerEntry) :
    ∃ l, updCurFinger s name e = { s with fps_rev := l } := by
  rw [updCurFinger]
  rcases s.fps_rev with _ | ⟨fp, fps⟩
  · exact ⟨s.fps_rev, rfl⟩
  · exact ⟨_, rfl⟩

/-- `setCurSampleType` only rewrites `fps_rev`. -/
theorem setCurSampleType_shape (s : ParseState) (v : String) :
    ∃ l, setCurSampleType s v = { s with fps_rev := l } := by
  rw [setCurSampleType]
  rcases s.fps_rev with _ | ⟨fp, fps⟩
  · exact ⟨s.fps_rev, rfl⟩
  · exact ⟨_, rfl⟩

theorem updCurFinger_ids (s : ParseState) (name : String) (e : FingerEntry) :
    (updCurFinger s name e).fps_rev.map (fun fp => fp.sample_id) =
      s.fps_rev.map (fun fp => fp.sample_id) := by
  rw [updCurFinger]
  rcases hfps : s.fps_rev with _ | ⟨fp, fps⟩ <;> simp [hfps]

theorem setCurSampleType_ids (s : ParseState) (v : String) :
    (setCurSampleType s v).fps_rev.map (fun fp => fp.sample_id) =
      s.fps_rev.map (fun fp => fp.sample_id) := by
  rw [setCurSampleType]
  rcases hfps : s.fps_rev with _ | ⟨fp, fps⟩ <;> simp [hfps]

/-- `fps_rev` sample ids after one branch body. -/
theorem applyTok_fps_ids (s : ParseState) (a : TokAction) :
    (applyTok s a).fps_rev.map (fun fp => fp.sample_id) =
      (match a with
       | TokAction.newFingerprint sid => [sid]
       | _ => []) ++ s.fps_rev.map (fun fp => fp.sample_id) := by
  cases a <;> simp [applyTok, updCurFinger_ids, setCurSampleType_ids]

/-- `primary_re_id` after one branch body. -/
theorem applyTok_primary (s : ParseState) (a : TokAction) :
    (applyTok s a).primary_re_id =
      (match a with
       | TokAction.setPrimary v => some v
       | _ => s.primary_re_id) := by
  cases a <;> try (simp [applyTok]; done)
  · rename_i v
    obtain ⟨l, hl⟩ := setCurSampleType_shape s v
    simp [applyTok, hl]
  · rename_i name e
    obtain ⟨l, hl⟩ := updCurFinger_shape s name e
    simp [applyTok, hl]

/-- `status_code` after one branch body. -/
theorem applyTok_status (s : ParseState) (a : TokAction) :
    (applyTok s a).status_code =
      (match a with
       | TokAction.setStatus code => some code
       | _ => s.status_code) := by
  cases a <;> try (simp [applyTok]; done)
  · rename_i v
    obtain ⟨l, hl⟩ := setCurSampleType_shape s v
    simp [applyTok, hl]
  · rename_i name e
    obtain ⟨l, hl⟩ := updCurFinger_shape s name e
    simp [applyTok, hl]

/-- `extra` after one branch body. -/
theorem applyTok_extra (s : ParseState) (a : TokAction) :
    (applyTok s a).extra =
      (match a with
       | TokAction.setExtra k v => alSet s.extra k v
       | _ => s.extra) := by
  cases a <;> try (simp [applyTok]; done)
  · rename_i v
    obtain ⟨l, hl⟩ := setCurSampleType_shape s v
    simp [applyTok, hl]
  · rename_i name e
    obtain ⟨l, hl⟩ := updCurFinger_shape s name e
    simp [applyTok, hl]

/-- One loop iteration contributes a fingerprint-group id exactly for a
`FingerprintSampleId=` token. -/
theorem stepTok_fps_ids (s : ParseState) (t : String) (next : Option String) :
    (stepTok s t next).fps_rev.map (fun fp => fp.sample_id) =
      (match fpIdOfTok t with
       | some sid => [sid]
       | none => []) ++ s.fps_rev.map (fun fp => fp.sample_id) := by
  rcases classifyTok_cases s t next with
    ⟨he, hc⟩ | ⟨he, hk, hc⟩ | ⟨he, hk, hp, hc⟩ | ⟨he, hk, hp, hc⟩ |
    ⟨he, hk, hc⟩ | ⟨he, hk, hft, hfs, hc⟩ | ⟨he, hk, hc⟩ | ⟨he, hk, hc⟩ |
    ⟨he, hk, hc⟩ | ⟨he, hk, hc⟩ | ⟨he, hk, hc⟩ | ⟨he, hk, hfne, hcur, hc⟩ |
    ⟨he, hns, name, hfl, hfne, hc⟩ | ⟨he, hns, hh, hc⟩ | ⟨he, hns, hh, hc⟩ <;>
  first
    | (simp [stepTok, hc, applyTok_fps_ids, fpIdOfTok, he]; done)
    | (simp [stepTok, hc, applyTok_fps_ids, fpIdOfTok, hk, he]; done)
    | (rcases hpy : pyInt (valOf t) with _ | n <;>
        (rw [hpy] at hc
         simp [stepTok, hc, applyTok_fps_ids, fpIdOfTok, hk, he, apply_ite]
         done))
    | (have hner : ¬keyOf t = "FingerprintSampleId" := fun h => hns (by
        rw [h]; decide)
       simp [stepTok, hc, applyTok_fps_ids, fpIdOfTok, hner, he]
       done)

theorem alGet_eq_some_mem {κ α : Type} [DecidableEq κ] (m : List (κ × α))
    (k : κ) (v : α) (h : alGet m k = some v) : (k, v) ∈ m := by
  induction m with
  | nil => simp [alGet] at h
  | cons p m ih =>
      by_cases hpk : p.1 = k
      · have hp2 : p.2 = v := by
          simp [alGet, List.find?, hpk] at h
          exact h
        cases p
        simp_all
      · have h2 : alGet m k = some v := by
          simpa [alGet, List.find?, hpk] using h
        exact List.mem_cons_of_mem _ (ih h2)

/-- `primary_re_id` after one loop iteration: only a first `ReId=` token
sets it. -/
theorem stepTok_primary (s : ParseState) (t : String) (next : Option String) :
    (stepTok s t next).primary_re_id =
      if hasEq t ∧ keyOf t = "ReId" ∧ s.primary_re_id = none then
        some (valOf t)
      else s.primary_re_id := by
  rcases classifyTok_cases s t next with
    ⟨he, hc⟩ | ⟨he, hk, hc⟩ | ⟨he, hk, hp, hc⟩ | ⟨he, hk, hp, hc⟩ |
    ⟨he, hk, hc⟩ | ⟨he, hk, hft, hfs, hc⟩ | ⟨he, hk, hc⟩ | ⟨he, hk, hc⟩ |
    ⟨he, hk, hc⟩ | ⟨he, hk, hc⟩ | ⟨he, hk, hc⟩ | ⟨he, hk, hfne, hcur, hc⟩ |
    ⟨he, hns, name, hfl, hfne, hc⟩ | ⟨he, hns, hh, hc⟩ | ⟨he, hns, hh, hc⟩
  · simp [stepTok, hc, applyTok_primary, he]
  · simp [stepTok, hc, applyTok_primary, hk, he]
  · simp [stepTok, hc, applyTok_primary, hk, he, hp]
  · obtain ⟨p, hp⟩ := hp
    rcases hpy : pyInt (valOf t) with _ | n <;>
      (rw [hpy] at hc
       simp [stepTok, hc, applyTok_primary, hk, he, hp, apply_ite])
  · rcases hpy : pyInt (valOf t) with _ | n <;>
      (rw [hpy] at hc
       simp [stepTok, hc, applyTok_primary, hk, he, apply_ite])
  · simp [stepTok, hc, applyTok_primary, hk, he]
  · rcases hpy : pyInt (valOf t) with _ | n <;>
      (rw [hpy] at hc
       simp [stepTok, hc, applyTok_primary, hk, he, apply_ite])
  · rcases hpy : pyInt (valOf t) with _ | n <;>
      (rw [hpy] at hc
       simp [stepTok, hc, applyTok_primary, hk, he, apply_ite])
  · rcases hpy : pyInt (valOf t) with _ | n <;>
      (rw [hpy] at hc
       simp [stepTok, hc, applyTok_primary, hk, he, apply_ite])
  · rcases hpy : pyInt (valOf t) with _ | n <;>
      (rw [hpy] at hc
       simp [stepTok, hc, applyTok_primary, hk, he, apply_ite])
  · simp [stepTok, hc, applyTok_primary, hk, he]
  · simp [stepTok, hc, applyTok_primary, hk, he]
  · have hner : ¬keyOf t = "ReId" := fun hx => hns (by rw [hx]; decide)
    simp [stepTok, hc, applyTok_primary, hner, he]
  · have hner : ¬keyOf t = "ReId" := fun hx => hns (by rw [hx]; decide)
    simp [stepTok, hc, applyTok_primary, hner, he]
  · have hner : ¬keyOf t = "ReId" := fun hx => hns (by rw [hx]; decide)
    simp [stepTok, hc, applyTok_primary, hner, he]

/-- `status_code` after one loop iteration: only a subsequent `ReId=`
token with a negative parseable value sets it. -/
theorem stepTok_status (s : ParseState) (t : String) (next : Option String) :
    (stepTok s t next).status_code =
      if hasEq t ∧ keyOf t = "ReId" ∧ s.primary_re_id ≠ none then
        (match pyInt (valOf t) with
         | some n => if n < 0 then some n else s.status_code
         | none => s.status_code)
      else s.status_code := by
  rcases classifyTok_cases s t next with
    ⟨he, hc⟩ | ⟨he, hk, hc⟩ | ⟨he, hk, hp, hc⟩ | ⟨he, hk, hp, hc⟩ |
    ⟨he, hk, hc⟩ | ⟨he, hk, hft, hfs, hc⟩ | ⟨he, hk, hc⟩ | ⟨he, hk, hc⟩ |
    ⟨he, hk, hc⟩ | ⟨he, hk, hc⟩ | ⟨he, hk, hc⟩ | ⟨he, hk, hfne, hcur, hc⟩ |
    ⟨he, hns, name, hfl, hfne, hc⟩ | ⟨he, hns, hh, hc⟩ | ⟨he, hns, hh, hc⟩
  · simp [stepTok, hc, applyTok_status, he]
  · simp [stepTok, hc, applyTok_status, hk, he]
  · simp [stepTok, hc, applyTok_status, hk, he, hp]
  · obtain ⟨p, hp⟩ := hp
    rcases hpy : pyInt (valOf t) with _ | n <;> rw [hpy] at hc
    · simp [stepTok, hc, applyTok_status, hk, he, hp, hpy]
    · by_cases hlt : n < 0 <;>
        simp [stepTok, hc, applyTok_status, hk, he, hp, hpy, hlt, apply_ite]
  · rcases hpy : pyInt (valOf t) with _ | n <;>
      (rw [hpy] at hc
       simp [stepTok, hc, applyTok_status, hk, he, apply_ite])
  · simp [stepTok, hc, applyTok_status, hk, he]
  · rcases hpy : pyInt (valOf t) with _ | n <;>
      (rw [hpy] at hc
       simp [stepTok, hc, applyTok_status, hk, he, apply_ite])
  · rcases hpy : pyInt (valOf t) with _ | n <;>
      (rw [hpy] at hc
       simp [stepTok, hc, applyTok_status, hk, he, apply_ite])
  · rcases hpy : pyInt (valOf t) with _ | n <;>
      (rw [hpy] at hc
       simp [stepTok, hc, applyTok_status, hk, he, apply_ite])
  · rcases hpy : pyInt (valOf t) with _ | n <;>
      (rw [hpy] at hc
       simp [stepTok, hc, applyTok_status, hk, he, apply_ite])
  · simp [stepTok, hc, applyTok_status, hk, he]
  · simp [stepTok, hc, applyTok_status, hk, he]
  · have hner : ¬keyOf t = "ReId" := fun hx => hns (by rw [hx]; decide)
    simp [stepTok, hc, applyTok_status, hner, he]
  · have hner : ¬keyOf t = "ReId" := fun hx => hns (by rw [hx]; decide)
    simp [stepTok, hc, applyTok_status, hner, he]
  · have hner : ¬keyOf t = "ReId" := fun hx => hns (by rw [hx]; decide)
    simp [stepTok, hc, applyTok_status, hner, he]

/-- A key in `handled_keys` never gains an `extra` entry in one loop
iteration. -/
theorem stepTok_extra_handled (s : ParseState) (t : String)
    (next : Option String) (k : String)
    (hk0 : handled_keys.contains k = true) :
    alGet (stepTok s t next).extra k = alGet s.extra k := by
  rcases classifyTok_cases s t next with
    ⟨he, hc⟩ | ⟨he, hk, hc⟩ | ⟨he, hk, hp, hc⟩ | ⟨he, hk, hp, hc⟩ |
    ⟨he, hk, hc⟩ | ⟨he, hk, hft, hfs, hc⟩ | ⟨he, hk, hc⟩ | ⟨he, hk, hc⟩ |
    ⟨he, hk, hc⟩ | ⟨he, hk, hc⟩ | ⟨he, hk, hc⟩ | ⟨he, hk, hfne, hcur, hc⟩ |
    ⟨he, hns, name, hfl, hfne, hc⟩ | ⟨he, hns, hh, hc⟩ | ⟨he, hns, hh, hc⟩
  · simp [stepTok, hc, applyTok_extra]
  · simp [stepTok, hc, applyTok_extra]
  · simp [stepTok, hc, applyTok_extra]
  · rcases hpy : pyInt (valOf t) with _ | n <;>
      (rw [hpy] at hc
       simp [stepTok, hc, applyTok_extra, apply_ite])
  · rcases hpy : pyInt (valOf t) with _ | n <;>
      (rw [hpy] at hc
       simp [stepTok, hc, applyTok_extra, apply_ite])
  · simp [stepTok, hc, applyTok_extra]
  · rcases hpy : pyInt (valOf t) with _ | n <;>
      (rw [hpy] at hc
       simp [stepTok, hc, applyTok_extra, apply_ite])
  · rcases hpy : pyInt (valOf t) with _ | n <;>
      (rw [hpy] at hc
       simp [stepTok, hc, applyTok_extra, apply_ite])
  · rcases hpy : pyInt (valOf t) with _ | n <;>
      (rw [hpy] at hc
       simp [stepTok, hc, applyTok_extra, apply_ite])
  · rcases hpy : pyInt (valOf t) with _ | n <;>
      (rw [hpy] at hc
       simp [stepTok, hc, applyTok_extra, apply_ite])
  · simp [stepTok, hc, applyTok_extra]
  · simp [stepTok, hc, applyTok_extra]
  · simp [stepTok, hc, applyTok_extra]
  · simp [stepTok, hc, applyTok_extra]
  · have hkk : k ≠ keyOf t := by
      intro hkk
      rw [hkk, hh] at hk0
      cases hk0
    simp [stepTok, hc, applyTok_extra,
      alGet_alSet_ne s.extra (keyOf t) k (valOf t) hkk]

/-- One loop iteration preserves the finger-map invariant. -/
theorem stepTok_valuesOk (s : ParseState) (t : String) (next : Option String)
    (h : ValuesOk s) : ValuesOk (stepTok s t next) := by
  have hsetCur : ∀ v, ValuesOk (setCurSampleType s v) := by
    intro v fp hfp
    rw [setCurSampleType] at hfp
    rcases hfps : s.fps_rev with _ | ⟨fp0, fps⟩
    · rw [hfps] at hfp
      exact h fp (hfps ▸ hfp)
    · rw [hfps] at hfp
      simp only [List.mem_cons] at hfp
      rcases hfp with hfp | hfp
      · subst hfp
        have h0 := h fp0 (by rw [hfps]; exact List.mem_cons_self _ _)
        simpa using h0
      · exact h fp (by rw [hfps]; exact List.mem_cons_of_mem _ hfp)
  have hupd : ∀ name e, name ∈ finger_keys.map Prod.snd →
      ValuesOk (updCurFinger s name e) := by
    intro name e hnamec fp hfp
    rw [updCurFinger] at hfp
    rcases hfps : s.fps_rev with _ | ⟨fp0, fps⟩
    · rw [hfps] at hfp
      exact h fp (hfps ▸ hfp)
    · rw [hfps] at hfp
      simp only [List.mem_cons] at hfp
      rcases hfp with hfp | hfp
      · subst hfp
        obtain ⟨hnd, hsub⟩ := h fp0 (by rw [hfps]; exact List.mem_cons_self _ _)
        refine ⟨?_, ?_⟩
        · rw [alSet_keys]
          by_cases hmem : name ∈ fp0.values.map Prod.fst
          · simpa [hmem] using hnd
          · rw [if_neg hmem, List.nodup_append]
            exact ⟨hnd, List.nodup_singleton _, by
              intro a ha hb
              simp only [List.mem_singleton] at hb
              subst hb
              exact hmem ha⟩
        · intro k hkm
          rw [alSet_keys] at hkm
          by_cases hmem : name ∈ fp0.values.map Prod.fst
          · rw [if_pos hmem] at hkm
            exact hsub k hkm
          · rw [if_neg hmem] at hkm
            rcases List.mem_append.1 hkm with hkm | hkm
            · exact hsub k hkm
            · simp only [List.mem_singleton] at hkm
              subst hkm
              exact hnamec
      · exact h fp (by rw [hfps]; exact List.mem_cons_of_mem _ hfp)
  rcases classifyTok_cases s t next with
    ⟨he, hc⟩ | ⟨he, hk, hc⟩ | ⟨he, hk, hp, hc⟩ | ⟨he, hk, hp, hc⟩ |
    ⟨he, hk, hc⟩ | ⟨he, hk, hft, hfs, hc⟩ | ⟨he, hk, hc⟩ | ⟨he, hk, hc⟩ |
    ⟨he, hk, hc⟩ | ⟨he, hk, hc⟩ | ⟨he, hk, hc⟩ | ⟨he, hk, hfne, hcur, hc⟩ |
    ⟨he, hns, name, hfl, hfne, hc⟩ | ⟨he, hns, hh, hc⟩ | ⟨he, hns, hh, hc⟩
  · simpa [stepTok, hc, applyTok, ValuesOk] using h
  · simpa [stepTok, hc, applyTok, ValuesOk] using h
  · simpa [stepTok, hc, applyTok, ValuesOk] using h
  · rcases hpy : pyInt (valOf t) with _ | n <;> rw [hpy] at hc
    · simpa [stepTok, hc, applyTok, ValuesOk] using h
    · by_cases hlt : n < 0 <;>
        simpa [stepTok, hc, applyTok, ValuesOk, hlt] using h
  · rcases hpy : pyInt (valOf t) with _ | n <;> rw [hpy] at hc <;>
      simpa [stepTok, hc, applyTok, ValuesOk] using h
  · simpa [stepTok, hc, applyTok, ValuesOk] using h
  · rcases hpy : pyInt (valOf t) with _ | n <;> rw [hpy] at hc <;>
      simpa [stepTok, hc, applyTok, ValuesOk] using h
  · rcases hpy : pyInt (valOf t) with _ | n <;> rw [hpy] at hc <;>
      simpa [stepTok, hc, applyTok, ValuesOk] using h
  · rcases hpy : pyInt (valOf t) with _ | n <;> rw [hpy] at hc <;>
      simpa [stepTok, hc, applyTok, ValuesOk] using h
  · rcases hpy : pyInt (valOf t) with _ | n <;> rw [hpy] at hc <;>
      simpa [stepTok, hc, applyTok, ValuesOk] using h
  · rw [stepTok, hc]
    intro fp hfp
    simp only [applyTok, List.mem_cons] at hfp
    rcases hfp with hfp | hfp
    · subst hfp
      exact ⟨by simp, by simp⟩
    · exact h fp hfp
  · rw [stepTok, hc]
    exact hsetCur (valOf t)
  · rw [stepTok, hc]
    refine hupd name _ ?_
    exact List.mem_map_of_mem Prod.snd (alGet_eq_some_mem finger_keys (keyOf t) name hfl)
  · simpa [stepTok, hc, applyTok, ValuesOk] using h
  · rw [stepTok, hc]
    intro fp hfp
    simp only [applyTok] at hfp
    exact h fp hfp

/-! ## Whole-loop characterizations -/

theorem processTokens_fps_ids (ts : List String) :
    ∀ s : ParseState,
      (processTokens s ts).fps_rev.map (fun fp => fp.sample_id) =
        (ts.filterMap fpIdOfTok).reverse ++
          s.fps_rev.map (fun fp => fp.sample_id) := by
  induction ts with
  | nil => intro s; simp [processTokens]
  | cons t rest ih =>
      intro s
      rw [processTokens, ih, stepTok_fps_ids]
      rcases hf : fpIdOfTok t with _ | sid <;>
        simp [List.filterMap_cons, hf]

theorem processTokens_reId (ts : List String) :
    ∀ s : ParseState,
      (processTokens s ts).primary_re_id =
        (match s.primary_re_id with
         | some p => some p
         | none => (reIdVals ts).head?) ∧
      (processTokens s ts).status_code =
        statusFold s.status_code
          (match s.primary_re_id with
           | some _ => reIdVals ts
           | none => (reIdVals ts).tail) := by
  induction ts with
  | nil =>
      intro s
      rcases hsp : s.primary_re_id with _ | p <;>
        simp [processTokens, reIdVals, statusFold, hsp]
  | cons t rest ih =>
      intro s
      rw [processTokens]
      obtain ⟨ih1, ih2⟩ := ih (stepTok s t rest.head?)
      by_cases hre : hasEq t ∧ keyOf t = "ReId"
      · have hvals : reIdVals (t :: rest) = valOf t :: reIdVals rest := by
          simp [reIdVals, List.filterMap_cons, hre.1, hre.2]
        rcases hsp : s.primary_re_id with _ | p
        · have hprim : (stepTok s t rest.head?).primary_re_id =
              some (valOf t) := by
            rw [stepTok_primary, if_pos ⟨hre.1, hre.2, hsp⟩]
          have hstat : (stepTok s t rest.head?).status_code = s.status_code := by
            rw [stepTok_status, if_neg (fun hcon => hcon.2.2 hsp)]
          constructor
          · rw [ih1, hprim, hvals]
            simp
          · rw [ih2, hprim, hstat, hvals]
            simp
        · have hprim : (stepTok s t rest.head?).primary_re_id = some p := by
            rw [stepTok_primary,
              if_neg (fun hcon => by rw [hsp] at hcon; cases hcon.2.2)]
            exact hsp
          have hstat : (stepTok s t rest.head?).status_code =
              (match pyInt (valOf t) with
               | some n => if n < 0 then some n else s.status_code
               | none => s.status_code) := by
            rw [stepTok_status, if_pos ⟨hre.1, hre.2, by rw [hsp]; intro hx; cases hx⟩]
          constructor
          · rw [ih1, hprim]
          · rw [ih2, hprim, hstat, hvals]
            simp only [statusFold, List.foldl_cons]
      · have hvals : reIdVals (t :: rest) = reIdVals rest := by
          simp only [reIdVals, List.filterMap_cons]
          rw [if_neg hre]
        have hprim : (stepTok s t rest.head?).primary_re_id =
            s.primary_re_id := by
          rw [stepTok_primary, if_neg (fun hcon => hre ⟨hcon.1, hcon.2.1⟩)]
        have hstat : (stepTok s t rest.head?).status_code = s.status_code := by
          rw [stepTok_status, if_neg (fun hcon => hre ⟨hcon.1, hcon.2.1⟩)]
        exact ⟨by rw [ih1, hprim, hvals], by rw [ih2, hprim, hstat, hvals]⟩

theorem processTokens_extra_handled (ts : List String) :
    ∀ (s : ParseState) (k : String), handled_keys.contains k = true →
      alGet (processTokens s ts).extra k = alGet s.extra k := by
  induction ts with
  | nil => intro s k _; rfl
  | cons t rest ih =>
      intro s k hk
      rw [processTokens, ih _ k hk, stepTok_extra_handled _ _ _ _ hk]

theorem processTokens_valuesOk (ts : List String) :
    ∀ s : ParseState, ValuesOk s → ValuesOk (processTokens s ts) := by
  induction ts with
  | nil => intro s h; exact h
  | cons t rest ih =>
      intro s h
      rw [processTokens]
      exact ih _ (stepTok_valuesOk s t rest.head? h)

/-- The finger-map invariant holds for every parsed record. -/
theorem parse_line_valuesOk (line : String) (fp : FingerprintSample)
    (hfp : fp ∈ (parse_line line).fingerprint_samples) :
    (fp.values.map Prod.fst).Nodup ∧
      ∀ k ∈ fp.values.map Prod.fst, k ∈ finger_keys.map Prod.snd := by
  have hvo : ValuesOk (processTokens {} (pySplit line)) :=
    processTokens_valuesOk (pySplit line) {} (by intro fp0 hfp0; simp at hfp0)
  have hfp2 : fp ∈ (processTokens {} (pySplit line)).fps_rev := by
    simp only [parse_line] at hfp
    exact List.mem_reverse.1 hfp
  exact hvo fp hfp2

/-! ## C5: ReId handling -/

/-- C5: `primary_id` is the first `ReId` value as a raw string (empty when
no `ReId` token exists); every subsequent `ReId` value is integer-parsed
and stored in `status_code` only when negative, with the last negative one
winning; subsequent non-negative or unparsable values are discarded, and
`ReId` never appears in `extra`. -/
theorem claim_C5 (line : String) :
    (parse_line line).re_id = ((reIdVals (pySplit line)).head?).getD "" ∧
    (parse_line line).status_code =
      statusFold none ((reIdVals (pySplit line)).tail) ∧
    alGet (parse_line line).extra "ReId" = none := by
  obtain ⟨h1, h2⟩ := processTokens_reId (pySplit line) {}
  refine ⟨?_, ?_, ?_⟩
  · simp only [parse_line]
    rw [h1]
  · simp only [parse_line]
    rw [h2]
  · simp only [parse_line]
    rw [processTokens_extra_handled (pySplit line) {} "ReId" (by decide)]
    rfl

/-! ## C6: FingerprintSampleId tokens and group identity -/

/-- C6: the parsed record's fingerprint groups are in bijection with the
`FingerprintSampleId=` tokens, in encounter order, each carrying the
parsed id (sentinel `-1` when unparsable) — duplicated id values stay
distinct entries; and a `FingerprintSampleId=` token always pushes a fresh
group (`sample_type = None`, empty finger map) that becomes the current
group (the head of the reversed group list). -/
theorem claim_C6 (line : String) (s : ParseState) (t : String)
    (next : Option String)
    (h : hasEq t = true ∧ keyOf t = "FingerprintSampleId") :
    ((parse_line line).fingerprint_samples).map (fun fp => fp.sample_id) =
      (pySplit line).filterMap fpIdOfTok ∧
    stepTok s t next =
      { s with fps_rev :=
          { sample_id := (pyInt (valOf t)).getD (-1), sample_type := none,
            values := [] } :: s.fps_rev } := by
  constructor
  · simp only [parse_line]
    rw [List.map_reverse, processTokens_fps_ids (pySplit line) {}]
    simp
  · have hcls : classifyTok s t next =
        TokAction.newFingerprint ((pyInt (valOf t)).getD (-1)) := by
      simp [classifyTok, h.1, h.2]
    rw [stepTok, hcls]
    rfl

/-- C6 witness: two `FingerprintSampleId=7` tokens yield two distinct
groups, in order. -/
theorem claim_C6_witness :
    (hasEq "FingerprintSampleId=7" = true ∧
      keyOf "FingerprintSampleId=7" = "FingerprintSampleId") ∧
    (((parse_line "RqType=IP FingerprintSampleId=7 RightThumb=80 FingerprintSampleId=7").fingerprint_samples).map
        (fun fp => fp.sample_id) =
      (pySplit "RqType=IP FingerprintSampleId=7 RightThumb=80 FingerprintSampleId=7").filterMap fpIdOfTok ∧
    stepTok {} "FingerprintSampleId=7" none =
      { ({} : ParseState) with fps_rev :=
          { sample_id := (pyInt (valOf "FingerprintSampleId=7")).getD (-1),
            sample_type := none, values := [] } ::
            ({} : ParseState).fps_rev }) :=
  ⟨by decide,
    claim_C6 "RqType=IP FingerprintSampleId=7 RightThumb=80 FingerprintSampleId=7"
      {} "FingerprintSampleId=7" none (by decide)⟩

/-! ## C9: finger maps are duplicate-free and bounded -/

/-- C9: in any parsed record, every fingerprint group maps each finger name
at most once (a repeated finger token overwrites), only canonical names
occur, and the map never holds more than 10 entries. -/
theorem claim_C9 (line : String) (fp : FingerprintSample)
    (hfp : fp ∈ (parse_line line).fingerprint_samples) :
    (fp.values.map Prod.fst).Nodup ∧
    (∀ k ∈ fp.values.map Prod.fst, k ∈ finger_keys.map Prod.snd) ∧
    fp.values.length ≤ 10 := by
  obtain ⟨hnd, hsub⟩ := parse_line_valuesOk line fp hfp
  refine ⟨hnd, hsub, ?_⟩
  have hlen : fp.values.length = (fp.values.map Prod.fst).length := by simp
  rw [hlen]
  have h1 : (fp.values.map Prod.fst).toFinset.card =
      (fp.values.map Prod.fst).length := List.toFinset_card_of_nodup hnd
  have h2 : (fp.values.map Prod.fst).toFinset ⊆
      (finger_keys.map Prod.snd).toFinset := by
    intro x hx
    rw [List.mem_toFinset] at hx ⊢
    exact hsub x hx
  calc (fp.values.map Prod.fst).length
      = (fp.values.map Prod.fst).toFinset.card := h1.symm
  _ ≤ (finger_keys.map Prod.snd).toFinset.card := Finset.card_le_card h2
  _ ≤ (finger_keys.map Prod.snd).length := (finger_keys.map Prod.snd).toFinset_card_le
  _ = 10 := by decide

/-- C9 witness: a line that repeats `RightThumb` inside one group; the
group's map holds a single (overwritten) entry. -/
theorem claim_C9_witness :
    ({ sample_id := 1, sample_type := none,
       values := [("right_thumb", ⟨some 90, none⟩)] } : FingerprintSample) ∈
      (parse_line "RqType=IP FingerprintSampleId=1 RightThumb=80 RightThumb=90").fingerprint_samples ∧
    ((([("right_thumb", (⟨some 90, none⟩ : FingerEntry))].map Prod.fst).Nodup) ∧
      (∀ k ∈ [("right_thumb", (⟨some 90, none⟩ : FingerEntry))].map Prod.fst,
        k ∈ finger_keys.map Prod.snd) ∧
      [("right_thumb", (⟨some 90, none⟩ : FingerEntry))].length ≤ 10) :=
  ⟨by decide,
    claim_C9 "RqType=IP FingerprintSampleId=1 RightThumb=80 RightThumb=90"
      { sample_id := 1, sample_type := none,
        values := [("right_thumb", ⟨some 90, none⟩)] }
      (by decide)⟩

/-! ## C10: lines without `=` tokens parse to the empty record -/

theorem stepTok_no_eq (s : ParseState) (t : String) (next : Option String)
    (h : hasEq t = false) : stepTok s t next = s := by
  simp [stepTok, classifyTok, h, applyTok]

theorem processTokens_no_eq (ts : List String) (s : ParseState)
    (h : ∀ t ∈ ts, hasEq t = false) : processTokens s ts = s := by
  induction ts with
  | nil => rfl
  | cons t rest ih =>
      rw [processTokens, stepTok_no_eq s t rest.head? (h t (by simp))]
      exact ih (fun u hu => h u (by simp [hu]))

/-- C10: a line none of whose whitespace-separated tokens contains `=`
(the empty line included) parses to a record with empty `rq_type` and
`re_id`, all face/iris/status fields `None`, empty `extra` and
`fingerprint_samples`, and `raw` equal to the line with trailing newlines
stripped. -/
theorem claim_C10 (line : String)
    (h : ∀ t ∈ pySplit line, hasEq t = false) :
    parse_line line =
      { rq_type := "", re_id := "", status_code := none,
        face_sample_id := none, face_sample_type := none, face_score := none,
        iris_sample_id := none, left_eye_score := none,
        right_eye_score := none, raw := some (rstripNl line), extra := [],
        fingerprint_samples := [] } := by
  simp only [parse_line]
  rw [processTokens_no_eq _ _ h]
  rfl

/-- C10 witness at the line `"hello world"` (and implicitly the empty
line, whose token list is also `=`-free). -/
theorem claim_C10_witness :
    (∀ t ∈ pySplit "hello world", hasEq t = false) ∧
    parse_line "hello world" =
      { rq_type := "", re_id := "", status_code := none,
        face_sample_id := none, face_sample_type := none, face_score := none,
        iris_sample_id := none, left_eye_score := none,
        right_eye_score := none, raw := some (rstripNl "hello world"),
        extra := [], fingerprint_samples := [] } :=
  ⟨by decide, claim_C10 "hello world" (by decide)⟩

/-- `face_score` after one branch body. -/
theorem applyTok_face (s : ParseState) (a : TokAction) :
    (applyTok s a).face_score =
      (match a with
       | TokAction.setFaceScore n => some n
       | _ => s.face_score) := by
  cases a <;> try (simp [applyTok]; done)
  · rename_i v
    obtain ⟨l, hl⟩ := setCurSampleType_shape s v
    simp [applyTok, hl]
  · rename_i name e
    obtain ⟨l, hl⟩ := updCurFinger_shape s name e
    simp [applyTok, hl]

/-- `face_score` after one loop iteration: only a `Face=` token with a
parseable value sets it. -/
theorem stepTok_face (s : ParseState) (t : String) (next : Option String) :
    (stepTok s t next).face_score =
      if hasEq t ∧ keyOf t = "Face" then
        (match pyInt (valOf t) with
         | some n => some n
         | none => s.face_score)
      else s.face_score := by
  rcases classifyTok_cases s t next with
    ⟨he, hc⟩ | ⟨he, hk, hc⟩ | ⟨he, hk, hp, hc⟩ | ⟨he, hk, hp, hc⟩ |
    ⟨he, hk, hc⟩ | ⟨he, hk, hft, hfs, hc⟩ | ⟨he, hk, hc⟩ | ⟨he, hk, hc⟩ |
    ⟨he, hk, hc⟩ | ⟨he, hk, hc⟩ | ⟨he, hk, hc⟩ | ⟨he, hk, hfne, hcur, hc⟩ |
    ⟨he, hns, name, hfl, hfne, hc⟩ | ⟨he, hns, hh, hc⟩ | ⟨he, hns, hh, hc⟩
  · simp [stepTok, hc, applyTok_face, he]
  · simp [stepTok, hc, applyTok_face, hk, he]
  · simp [stepTok, hc, applyTok_face, hk, he]
  · obtain ⟨p, hp⟩ := hp
    rcases hpy : pyInt (valOf t) with _ | n <;> rw [hpy] at hc
    · simp [stepTok, hc, applyTok_face, hk, he]
    · by_cases hlt : n < 0 <;>
        simp [stepTok, hc, applyTok_face, hk, he, hlt, apply_ite]
  · rcases hpy : pyInt (valOf t) with _ | n <;>
      (rw [hpy] at hc
       simp [stepTok, hc, applyTok_face, hk, he, hpy, apply_ite])
  · simp [stepTok, hc, applyTok_face, hk, he]
  · rcases hpy : pyInt (valOf t) with _ | n <;>
      (rw [hpy] at hc
       simp [stepTok, hc, applyTok_face, hk, he, hpy, apply_ite])
  · rcases hpy : pyInt (valOf t) with _ | n <;>
      (rw [hpy] at hc
       simp [stepTok, hc, applyTok_face, hk, he, hpy, apply_ite])
  · rcases hpy : pyInt (valOf t) with _ | n <;>
      (rw [hpy] at hc
       simp [stepTok, hc, applyTok_face, hk, he, hpy, apply_ite])
  · rcases hpy : pyInt (valOf t) with _ | n <;>
      (rw [hpy] at hc
       simp [stepTok, hc, applyTok_face, hk, he, hpy, apply_ite])
  · simp [stepTok, hc, applyTok_face, hk, he]
  · simp [stepTok, hc, applyTok_face, hk, he]
  · have hner : ¬keyOf t = "Face" := fun hx => hns (by rw [hx]; decide)
    simp [stepTok, hc, applyTok_face, hner, he]
  · have hner : ¬keyOf t = "Face" := fun hx => hns (by rw [hx]; decide)
    simp [stepTok, hc, applyTok_face, hner, he]
  · have hner : ¬keyOf t = "Face" := fun hx => hns (by rw [hx]; decide)
    simp [stepTok, hc, applyTok_face, hner, he]

/-- `left_eye_score` after one branch body. -/
theorem applyTok_leftEye (s : ParseState) (a : TokAction) :
    (applyTok s a).left_eye_score =
      (match a with
       | TokAction.setLeftEye n => some n
       | _ => s.left_eye_score) := by
  cases a <;> try (simp [applyTok]; done)
  · rename_i v
    obtain ⟨l, hl⟩ := setCurSampleType_shape s v
    simp [applyTok, hl]
  · rename_i name e
    obtain ⟨l, hl⟩ := updCurFinger_shape s name e
    simp [applyTok, hl]

/-- `left_eye_score` after one loop iteration: only a `LeftEye=` token with a
parseable value sets it. -/
theorem stepTok_leftEye (s : ParseState) (t : String) (next : Option String) :
    (stepTok s t next).left_eye_score =
      if hasEq t ∧ keyOf t = "LeftEye" then
        (match pyInt (valOf t) with
         | some n => some n
         | none => s.left_eye_score)
      else s.left_eye_score := by
  rcases classifyTok_cases s t next with
    ⟨he, hc⟩ | ⟨he, hk, hc⟩ | ⟨he, hk, hp, hc⟩ | ⟨he, hk, hp, hc⟩ |
    ⟨he, hk, hc⟩ | ⟨he, hk, hft, hfs, hc⟩ | ⟨he, hk, hc⟩ | ⟨he, hk, hc⟩ |
    ⟨he, hk, hc⟩ | ⟨he, hk, hc⟩ | ⟨he, hk, hc⟩ | ⟨he, hk, hfne, hcur, hc⟩ |
    ⟨he, hns, name, hfl, hfne, hc⟩ | ⟨he, hns, hh, hc⟩ | ⟨he, hns, hh, hc⟩
  · simp [stepTok, hc, applyTok_leftEye, he]
  · simp [stepTok, hc, applyTok_leftEye, hk, he]
  · simp [stepTok, hc, applyTok_leftEye, hk, he]
  · obtain ⟨p, hp⟩ := hp
    rcases hpy : pyInt (valOf t) with _ | n <;> rw [hpy] at hc
    · simp [stepTok, hc, applyTok_leftEye, hk, he]
    · by_cases hlt : n < 0 <;>
        simp [stepTok, hc, applyTok_leftEye, hk, he, hlt, apply_ite]
  · rcases hpy : pyInt (valOf t) with _ | n <;>
      (rw [hpy] at hc
       simp [stepTok, hc, applyTok_leftEye, hk, he, hpy, apply_ite])
  · simp [stepTok, hc, applyTok_leftEye, hk, he]
  · rcases hpy : pyInt (valOf t) with _ | n <;>
      (rw [hpy] at hc
       simp [stepTok, hc, applyTok_leftEye, hk, he, hpy, apply_ite])
  · rcases hpy : pyInt (valOf t) with _ | n <;>
      (rw [hpy] at hc
       simp [stepTok, hc, applyTok_leftEye, hk, he, hpy, apply_ite])
  · rcases hpy : pyInt (valOf t) with _ | n <;>
      (rw [hpy] at hc
       simp [stepTok, hc, applyTok_leftEye, hk, he, hpy, apply_ite])
  · rcases hpy : pyInt (valOf t) with _ | n <;>
      (rw [hpy] at hc
       simp [stepTok, hc, applyTok_leftEye, hk, he, hpy, apply_ite])
  · simp [stepTok, hc, applyTok_leftEye, hk, he]
  · simp [stepTok, hc, applyTok_leftEye, hk, he]
  · have hner : ¬keyOf t = "LeftEye" := fun hx => hns (by rw [hx]; decide)
    simp [stepTok, hc, applyTok_leftEye, hner, he]
  · have hner : ¬keyOf t = "LeftEye" := fun hx => hns (by rw [hx]; decide)
    simp [stepTok, hc, applyTok_leftEye, hner, he]
  · have hner : ¬keyOf t = "LeftEye" := fun hx => hns (by rw [hx]; decide)
    simp [stepTok, hc, applyTok_leftEye, hner, he]

/-- `right_eye_score` after one branch body. -/
theorem applyTok_rightEye (s : ParseState) (a : TokAction) :
    (applyTok s a).right_eye_score =
      (match a with
       | TokAction.setRightEye n => some n
       | _ => s.right_eye_score) := by
  cases a <;> try (simp [applyTok]; done)
  · rename_i v
    obtain ⟨l, hl⟩ := setCurSampleType_shape s v
    simp [applyTok, hl]
  · rename_i name e
    obtain ⟨l, hl⟩ := updCurFinger_shape s name e
    simp [applyTok, hl]

/-- `right_eye_score` after one loop iteration: only a `RightEye=` token with a
parseable value sets it. -/
theorem stepTok_rightEye (s : ParseState) (t : String) (next : Option String) :
    (stepTok s t next).right_eye_score =
      if hasEq t ∧ keyOf t = "RightEye" then
        (match pyInt (valOf t) with
         | some n => some n
         | none => s.right_eye_score)
      else s.right_eye_score := by
  rcases classifyTok_cases s t next with
    ⟨he, hc⟩ | ⟨he, hk, hc⟩ | ⟨he, hk, hp, hc⟩ | ⟨he, hk, hp, hc⟩ |
    ⟨he, hk, hc⟩ | ⟨he, hk, hft, hfs, hc⟩ | ⟨he, hk, hc⟩ | ⟨he, hk, hc⟩ |
    ⟨he, hk, hc⟩ | ⟨he, hk, hc⟩ | ⟨he, hk, hc⟩ | ⟨he, hk, hfne, hcur, hc⟩ |
    ⟨he, hns, name, hfl, hfne, hc⟩ | ⟨he, hns, hh, hc⟩ | ⟨he, hns, hh, hc⟩
  · simp [stepTok, hc, applyTok_rightEye, he]
  · simp [stepTok, hc, applyTok_rightEye, hk, he]
  · simp [stepTok, hc, applyTok_rightEye, hk, he]
  · obtain ⟨p, hp⟩ := hp
    rcases hpy : pyInt (valOf t) with _ | n <;> rw [hpy] at hc
    · simp [stepTok, hc, applyTok_rightEye, hk, he]
    · by_cases hlt : n < 0 <;>
        simp [stepTok, hc, applyTok_rightEye, hk, he, hlt, apply_ite]
  · rcases hpy : pyInt (valOf t) with _ | n <;>
      (rw [hpy] at hc
       simp [stepTok, hc, applyTok_rightEye, hk, he, hpy, apply_ite])
  · simp [stepTok, hc, applyTok_rightEye, hk, he]
  · rcases hpy : pyInt (valOf t) with _ | n <;>
      (rw [hpy] at hc
       simp [stepTok, hc, applyTok_rightEye, hk, he, hpy, apply_ite])
  · rcases hpy : pyInt (valOf t) with _ | n <;>
      (rw [hpy] at hc
       simp [stepTok, hc, applyTok_rightEye, hk, he, hpy, apply_ite])
  · rcases hpy : pyInt (valOf t) with _ | n <;>
      (rw [hpy] at hc
       simp [stepTok, hc, applyTok_rightEye, hk, he, hpy, apply_ite])
  · rcases hpy : pyInt (valOf t) with _ | n <;>
      (rw [hpy] at hc
       simp [stepTok, hc, applyTok_rightEye, hk, he, hpy, apply_ite])
  · simp [stepTok, hc, applyTok_rightEye, hk, he]
  · simp [stepTok, hc, applyTok_rightEye, hk, he]
  · have hner : ¬keyOf t = "RightEye" := fun hx => hns (by rw [hx]; decide)
    simp [stepTok, hc, applyTok_rightEye, hner, he]
  · have hner : ¬keyOf t = "RightEye" := fun hx => hns (by rw [hx]; decide)
    simp [stepTok, hc, applyTok_rightEye, hner, he]
  · have hner : ¬keyOf t = "RightEye" := fun hx => hns (by rw [hx]; decide)
    simp [stepTok, hc, applyTok_rightEye, hner, he]

/-- The whole loop leaves an `Option Int` field `None` exactly when it
started `None` and no token with the field's key carries a parseable
value. -/
theorem processTokens_none_iff (g : ParseState → Option Int) (k : String)
    (hstep : ∀ s t next, g (stepTok s t next) =
      if hasEq t ∧ keyOf t = k then
        (match pyInt (valOf t) with
         | some n => some n
         | none => g s)
      else g s) (ts : List String) :
    ∀ s : ParseState,
      (g (processTokens s ts) = none) ↔
        (g s = none ∧ hasParsableTok k ts = false) := by
  induction ts with
  | nil => intro s; simp [processTokens, hasParsableTok]
  | cons t rest ih =>
      intro s
      rw [processTokens, ih]
      by_cases hc : hasEq t ∧ keyOf t = k
      · rcases hpy : pyInt (valOf t) with _ | n
        · rw [hstep, if_pos hc, hpy]
          simp [hasParsableTok, hc.1, hc.2, hpy]
        · rw [hstep, if_pos hc, hpy]
          simp [hasParsableTok, hc.1, hc.2, hpy]
      · rw [hstep, if_neg hc]
        have hfalse : (hasEq t && (keyOf t == k) &&
            (pyInt (valOf t)).isSome) = false := by
          by_cases h1 : hasEq t = true
          · have h2 : ¬keyOf t = k := fun h => hc ⟨h1, h⟩
            simp [h1, h2]
          · simp only [Bool.not_eq_true] at h1
            simp [h1]
        simp [hasParsableTok, hfalse]

theorem parse_line_face_none (line : String) :
    ((parse_line line).face_score = none) ↔
      hasParsableTok "Face" (pySplit line) = false := by
  have h := processTokens_none_iff (fun s => s.face_score) "Face"
    (fun s t next => stepTok_face s t next) (pySplit line) {}
  simpa [parse_line] using h

theorem parse_line_leftEye_none (line : String) :
    ((parse_line line).left_eye_score = none) ↔
      hasParsableTok "LeftEye" (pySplit line) = false := by
  have h := processTokens_none_iff (fun s => s.left_eye_score) "LeftEye"
    (fun s t next => stepTok_leftEye s t next) (pySplit line) {}
  simpa [parse_line] using h

theorem parse_line_rightEye_none (line : String) :
    ((parse_line line).right_eye_score = none) ↔
      hasParsableTok "RightEye" (pySplit line) = false := by
  have h := processTokens_none_iff (fun s => s.right_eye_score) "RightEye"
    (fun s t next => stepTok_rightEye s t next) (pySplit line) {}
  simpa [parse_line] using h

/-! ## C1: fact-row counts -/

theorem mem_faceRowsOf (record : BiometricsRecord)
    (sn sf : Option String) (d : Option PyDate) (row : BiometricScore)
    (h : row ∈ faceRowsOf record sn sf d) :
    row.modality = "FACE" ∧ row.channel = "FACE" := by
  rw [faceRowsOf] at h
  rcases hfc : record.face_score with _ | sc <;> rw [hfc] at h
  · cases h
  · rcases List.mem_singleton.1 h with rfl
    exact ⟨rfl, rfl⟩

theorem mem_leftEyeRowsOf (record : BiometricsRecord)
    (sn sf : Option String) (d : Option PyDate) (row : BiometricScore)
    (h : row ∈ leftEyeRowsOf record sn sf d) :
    row.modality = "IRIS" ∧ row.channel = "LEFT_EYE" := by
  rw [leftEyeRowsOf] at h
  rcases hfc : record.left_eye_score with _ | sc <;> rw [hfc] at h
  · cases h
  · rcases List.mem_singleton.1 h with rfl
    exact ⟨rfl, rfl⟩

theorem mem_rightEyeRowsOf (record : BiometricsRecord)
    (sn sf : Option String) (d : Option PyDate) (row : BiometricScore)
    (h : row ∈ rightEyeRowsOf record sn sf d) :
    row.modality = "IRIS" ∧ row.channel = "RIGHT_EYE" := by
  rw [rightEyeRowsOf] at h
  rcases hfc : record.right_eye_score with _ | sc <;> rw [hfc] at h
  · cases h
  · rcases List.mem_singleton.1 h with rfl
    exact ⟨rfl, rfl⟩

theorem mem_fingerRowsOf (record : BiometricsRecord)
    (sn sf : Option String) (d : Option PyDate) (row : BiometricScore)
    (h : row ∈ fingerRowsOf record sn sf d) :
    row.modality = "FINGER" := by
  rw [fingerRowsOf] at h
  rw [List.mem_flatten] at h
  obtain ⟨l, hl, hrow⟩ := h
  rw [List.mem_map] at hl
  obtain ⟨fp, hfp, rfl⟩ := hl
  rw [List.mem_filterMap] at hrow
  obtain ⟨p, hp, hrow⟩ := hrow
  rcases hch : alGet FINGER_CHANNEL_MAP p.1 with _ | ch <;> rw [hch] at hrow
  · cases hrow
  · cases hrow
    rfl

theorem length_filterMap_of_isSome {α β : Type} (f : α → Option β)
    (l : List α) (h : ∀ x ∈ l, (f x).isSome = true) :
    (l.filterMap f).length = l.length := by
  induction l with
  | nil => rfl
  | cons x l ih =>
      rcases hfx : f x with _ | y
      · have := h x (by simp)
        rw [hfx] at this
        cases this
      · rw [List.filterMap_cons, hfx]
        simp only [List.length_cons]
        rw [ih (fun z hz => h z (by simp [hz]))]

theorem fingerRowsOf_length (record : BiometricsRecord)
    (sn sf : Option String) (d : Option PyDate)
    (hkeys : ∀ fp ∈ record.fingerprint_samples, ∀ p ∈ fp.values,
      (alGet FINGER_CHANNEL_MAP p.1).isSome = true) :
    (fingerRowsOf record sn sf d).length =
      (record.fingerprint_samples.map (fun fp => fp.values.length)).sum := by
  rw [fingerRowsOf, List.length_flatten, List.map_map]
  congr 1
  refine List.map_congr_left ?_
  intro fp hfp
  exact length_filterMap_of_isSome _ _ (fun p hp => by
    rcases hch : alGet FINGER_CHANNEL_MAP p.1 with _ | ch
    · have hks := hkeys fp hfp p hp
      rw [hch] at hks
      cases hks
    · rfl)

/-- Fact-row counts of `_record_to_biometric_scores` in terms of the
record's fields. -/
theorem record_counts (record : BiometricsRecord) (sn sf : Option String)
    (hkeys : ∀ fp ∈ record.fingerprint_samples, ∀ p ∈ fp.values,
      (alGet FINGER_CHANNEL_MAP p.1).isSome = true) :
    countModality (_record_to_biometric_scores record sn sf) "FACE" =
      (if record.face_score = none then 0 else 1) ∧
    countChannel (_record_to_biometric_scores record sn sf) "IRIS" "LEFT_EYE" =
      (if record.left_eye_score = none then 0 else 1) ∧
    countChannel (_record_to_biometric_scores record sn sf) "IRIS" "RIGHT_EYE" =
      (if record.right_eye_score = none then 0 else 1) ∧
    countModality (_record_to_biometric_scores record sn sf) "FINGER" =
      (record.fingerprint_samples.map (fun fp => fp.values.length)).sum := by
  set d := _extract_date_from_filename sf with hd
  have hface : ∀ (p : BiometricScore → Prop) [DecidablePred p],
      (∀ row, row.modality = "FACE" → row.channel = "FACE" → ¬p row) →
      (faceRowsOf record sn sf d).filter (fun row => p row) = [] := by
    intro p _ hp
    rw [List.filter_eq_nil_iff]
    intro row hrow
    obtain ⟨h1, h2⟩ := mem_faceRowsOf record sn sf d row hrow
    simpa using hp row h1 h2
  have hleft : ∀ (p : BiometricScore → Prop) [DecidablePred p],
      (∀ row, row.modality = "IRIS" → row.channel = "LEFT_EYE" → ¬p row) →
      (leftEyeRowsOf record sn sf d).filter (fun row => p row) = [] := by
    intro p _ hp
    rw [List.filter_eq_nil_iff]
    intro row hrow
    obtain ⟨h1, h2⟩ := mem_leftEyeRowsOf record sn sf d row hrow
    simpa using hp row h1 h2
  have hright : ∀ (p : BiometricScore → Prop) [DecidablePred p],
      (∀ row, row.modality = "IRIS" → row.channel = "RIGHT_EYE" → ¬p row) →
      (rightEyeRowsOf record sn sf d).filter (fun row => p row) = [] := by
    intro p _ hp
    rw [List.filter_eq_nil_iff]
    intro row hrow
    obtain ⟨h1, h2⟩ := mem_rightEyeRowsOf record sn sf d row hrow
    simpa using hp row h1 h2
  have hfing : ∀ (p : BiometricScore → Prop) [DecidablePred p],
      (∀ row, row.modality = "FINGER" → ¬p row) →
      (fingerRowsOf record sn sf d).filter (fun row => p row) = [] := by
    intro p _ hp
    rw [List.filter_eq_nil_iff]
    intro row hrow
    have h1 := mem_fingerRowsOf record sn sf d row hrow
    simpa using hp row h1
  refine ⟨?_, ?_, ?_, ?_⟩
  · rw [countModality, _record_to_biometric_scores]
    simp only [← hd, List.filter_append, List.length_append]
    rw [hleft (fun row => row.modality = "FACE")
        (fun row h1 _ h2 => by simp [h1] at h2),
      hright (fun row => row.modality = "FACE")
        (fun row h1 _ h2 => by simp [h1] at h2),
      hfing (fun row => row.modality = "FACE")
        (fun row h1 h2 => by simp [h1] at h2)]
    rcases hfc : record.face_score with _ | sc <;>
      simp [faceRowsOf, hfc]
  · rw [countChannel, _record_to_biometric_scores]
    simp only [← hd, List.filter_append, List.length_append]
    rw [hface (fun row => row.modality = "IRIS" ∧ row.channel = "LEFT_EYE")
        (fun row h1 _ h2 => by simp [h1] at h2),
      hright (fun row => row.modality = "IRIS" ∧ row.channel = "LEFT_EYE")
        (fun row _ h1 h2 => by simp [h1] at h2),
      hfing (fun row => row.modality = "IRIS" ∧ row.channel = "LEFT_EYE")
        (fun row h1 h2 => by simp [h1] at h2)]
    rcases hfc : record.left_eye_score with _ | sc <;>
      simp [leftEyeRowsOf, hfc]
  · rw [countChannel, _record_to_biometric_scores]
    simp only [← hd, List.filter_append, List.length_append]
    rw [hface (fun row => row.modality = "IRIS" ∧ row.channel = "RIGHT_EYE")
        (fun row h1 _ h2 => by simp [h1] at h2),
      hleft (fun row => row.modality = "IRIS" ∧ row.channel = "RIGHT_EYE")
        (fun row _ h1 h2 => by simp [h1] at h2),
      hfing (fun row => row.modality = "IRIS" ∧ row.channel = "RIGHT_EYE")
        (fun row h1 h2 => by simp [h1] at h2)]
    rcases hfc : record.right_eye_score with _ | sc <;>
      simp [rightEyeRowsOf, hfc]
  · rw [countModality, _record_to_biometric_scores]
    simp only [← hd, List.filter_append, List.length_append]
    rw [hface (fun row => row.modality = "FINGER")
        (fun row h1 _ h2 => by simp [h1] at h2),
      hleft (fun row => row.modality = "FINGER")
        (fun row h1 _ h2 => by simp [h1] at h2),
      hright (fun row => row.modality = "FINGER")
        (fun row h1 _ h2 => by simp [h1] at h2)]
    have hself : (fingerRowsOf record sn sf d).filter
        (fun row => row.modality = "FINGER") = fingerRowsOf record sn sf d := by
      rw [List.filter_eq_self]
      intro row hrow
      simp [mem_fingerRowsOf record sn sf d row hrow]
    rw [hself, fingerRowsOf_length record sn sf d hkeys]
    simp

/-- C1 as stated is false on the code: a line can carry a `Face=` token
and produce no FACE row (unparsable value), and can produce exactly one
IRIS row (only one eye present).  Concrete input:
`"RqType=IP Face=abc LeftEye=50"`. -/
theorem claim_C1_counterexample :
    (parse_line "RqType=IP Face=abc LeftEye=50").rq_type = "IP" ∧
    (pySplit "RqType=IP Face=abc LeftEye=50").any
      (fun t => hasEq t && (keyOf t == "Face")) = true ∧
    countModality
      (_record_to_biometric_scores (parse_line "RqType=IP Face=abc LeftEye=50")
        none none) "FACE" = 0 ∧
    countModality
      (_record_to_biometric_scores (parse_line "RqType=IP Face=abc LeftEye=50")
        none none) "IRIS" = 1 := by
  decide

/-- C1 (amended): for a line with `RqType=IP`, expanding the parsed record
produces exactly one FACE row iff some `Face=` token has a parseable
integer value; exactly one IRIS LEFT_EYE row iff some `LeftEye=` token has
a parseable value, and independently one RIGHT_EYE row for `RightEye=` (so
the IRIS row count is 0, 1 or 2); and one FINGER row per finger name
recorded in each fingerprint group (recognized names only, repeated names
overwritten within a group). -/
theorem claim_C1 (line : String) (sn sf : Option String)
    (hIP : (parse_line line).rq_type = "IP") :
    countModality (_record_to_biometric_scores (parse_line line) sn sf)
        "FACE" =
      (if hasParsableTok "Face" (pySplit line) then 1 else 0) ∧
    countChannel (_record_to_biometric_scores (parse_line line) sn sf)
        "IRIS" "LEFT_EYE" =
      (if hasParsableTok "LeftEye" (pySplit line) then 1 else 0) ∧
    countChannel (_record_to_biometric_scores (parse_line line) sn sf)
        "IRIS" "RIGHT_EYE" =
      (if hasParsableTok "RightEye" (pySplit line) then 1 else 0) ∧
    countModality (_record_to_biometric_scores (parse_line line) sn sf)
        "FINGER" =
      ((parse_line line).fingerprint_samples.map
        (fun fp => fp.values.length)).sum := by
  have hcanon : ∀ k ∈ finger_keys.map Prod.snd,
      (alGet FINGER_CHANNEL_MAP k).isSome = true := by decide
  have hkeys : ∀ fp ∈ (parse_line line).fingerprint_samples,
      ∀ p ∈ fp.values, (alGet FINGER_CHANNEL_MAP p.1).isSome = true := by
    intro fp hfp p hp
    obtain ⟨-, hsub⟩ := parse_line_valuesOk line fp hfp
    exact hcanon p.1 (hsub p.1 (List.mem_map_of_mem Prod.fst hp))
  obtain ⟨h1, h2, h3, h4⟩ := record_counts (parse_line line) sn sf hkeys
  refine ⟨?_, ?_, ?_, h4⟩
  · rcases hb : hasParsableTok "Face" (pySplit line) with _ | _
    · rw [h1, if_pos ((parse_line_face_none line).2 hb)]
      simp [hb]
    · have hne : ¬(parse_line line).face_score = none := fun hnone => by
        have hx := (parse_line_face_none line).1 hnone
        rw [hb] at hx
        cases hx
      rw [h1, if_neg hne]
      simp [hb]
  · rcases hb : hasParsableTok "LeftEye" (pySplit line) with _ | _
    · rw [h2, if_pos ((parse_line_leftEye_none line).2 hb)]
      simp [hb]
    · have hne : ¬(parse_line line).left_eye_score = none := fun hnone => by
        have hx := (parse_line_leftEye_none line).1 hnone
        rw [hb] at hx
        cases hx
      rw [h2, if_neg hne]
      simp [hb]
  · rcases hb : hasParsableTok "RightEye" (pySplit line) with _ | _
    · rw [h3, if_pos ((parse_line_rightEye_none line).2 hb)]
      simp [hb]
    · have hne : ¬(parse_line line).right_eye_score = none := fun hnone => by
        have hx := (parse_line_rightEye_none line).1 hnone
        rw [hb] at hx
        cases hx
      rw [h3, if_neg hne]
      simp [hb]

/-- C1 witness at a concrete IP line with a face score, one eye score and
one fingerprint group holding two fingers. -/
theorem claim_C1_witness :
    (parse_line "RqType=IP Face=200 LeftEye=80 FingerprintSampleId=1 RightThumb=90 RightIndex=85").rq_type = "IP" ∧
    (countModality (_record_to_biometric_scores (parse_line "RqType=IP Face=200 LeftEye=80 FingerprintSampleId=1 RightThumb=90 RightIndex=85") none none)
        "FACE" =
      (if hasParsableTok "Face" (pySplit "RqType=IP Face=200 LeftEye=80 FingerprintSampleId=1 RightThumb=90 RightIndex=85") then 1 else 0) ∧
    countChannel (_record_to_biometric_scores (parse_line "RqType=IP Face=200 LeftEye=80 FingerprintSampleId=1 RightThumb=90 RightIndex=85") none none)
        "IRIS" "LEFT_EYE" =
      (if hasParsableTok "LeftEye" (pySplit "RqType=IP Face=200 LeftEye=80 FingerprintSampleId=1 RightThumb=90 RightIndex=85") then 1 else 0) ∧
    countChannel (_record_to_biometric_scores (parse_line "RqType=IP Face=200 LeftEye=80 FingerprintSampleId=1 RightThumb=90 RightIndex=85") none none)
        "IRIS" "RIGHT_EYE" =
      (if hasParsableTok "RightEye" (pySplit "RqType=IP Face=200 LeftEye=80 FingerprintSampleId=1 RightThumb=90 RightIndex=85") then 1 else 0) ∧
    countModality (_record_to_biometric_scores (parse_line "RqType=IP Face=200 LeftEye=80 FingerprintSampleId=1 RightThumb=90 RightIndex=85") none none)
        "FINGER" =
      ((parse_line "RqType=IP Face=200 LeftEye=80 FingerprintSampleId=1 RightThumb=90 RightIndex=85").fingerprint_samples.map
        (fun fp => fp.values.length)).sum) :=
  ⟨by decide, claim_C1 "RqType=IP Face=200 LeftEye=80 FingerprintSampleId=1 RightThumb=90 RightIndex=85" none none (by decide)⟩

/-! ## C3: JSONL dictionary round trip -/

/-- Any record with `rq_type = "IP"` survives
`_dict_to_record ∘ _record_to_dict` unchanged. -/
theorem dict_round_trip (r : BiometricsRecord) (h : r.rq_type = "IP") :
    _dict_to_record (_record_to_dict r) = r := by
  have hmap : ∀ l : List FingerprintSample,
      (l.map (fun fp => ({ sample_id := some fp.sample_id,
                           sample_type := fp.sample_type,
                           fingers := fp.values } : FpDict))).map
        (fun f => ({ sample_id := f.sample_id.getD 0,
                     sample_type := f.sample_type,
                     values := f.fingers } : FingerprintSample)) = l := by
    intro l
    rw [List.map_map]
    conv_rhs => rw [← List.map_id l]
    refine List.map_congr_left ?_
    intro fp _
    cases fp
    rfl
  obtain ⟨rq, re, sc, fsi, fst, fsc, isi, les, res, raw, ex, fps⟩ := r
  simp only at h
  subst h
  rw [_record_to_dict]
  rw [if_neg (by intro hx; exact hx rfl)]
  rw [_dict_to_record]
  by_cases hface : (fsi ≠ none ∨ fst ≠ none ∨ fsc ≠ none) <;>
    by_cases hiris : (isi ≠ none ∨ les ≠ none ∨ res ≠ none) <;>
    by_cases hfps : fps ≠ [] <;>
    by_cases hex : ex ≠ [] <;>
    push_neg at hface hiris hfps hex <;>
    simp_all [hmap]

/-- C3: a record parsed from a line with `RqType=IP` is reproduced exactly
by converting it to its JSON dictionary form and back: every field
(request type, primary id, status code, raw line, face block, iris block,
fingerprint samples in order, extra map) is equal after the round trip. -/
theorem claim_C3 (line : String) (h : (parse_line line).rq_type = "IP") :
    _dict_to_record (_record_to_dict (parse_line line)) = parse_line line :=
  dict_round_trip (parse_line line) h

/-- C3 witness at a concrete IP line with face, iris, fingerprint and
extra data. -/
theorem claim_C3_witness :
    (parse_line "RqType=IP ReId=5 Face=200 FaceSampleId=1 IrisSampleId=2 LeftEye=80 FingerprintSampleId=3 RightThumb=90 nbpk=33 Foo=bar").rq_type = "IP" ∧
    _dict_to_record (_record_to_dict
      (parse_line "RqType=IP ReId=5 Face=200 FaceSampleId=1 IrisSampleId=2 LeftEye=80 FingerprintSampleId=3 RightThumb=90 nbpk=33 Foo=bar")) =
      parse_line "RqType=IP ReId=5 Face=200 FaceSampleId=1 IrisSampleId=2 LeftEye=80 FingerprintSampleId=3 RightThumb=90 nbpk=33 Foo=bar" :=
  ⟨by decide,
    claim_C3 "RqType=IP ReId=5 Face=200 FaceSampleId=1 IrisSampleId=2 LeftEye=80 FingerprintSampleId=3 RightThumb=90 nbpk=33 Foo=bar"
      (by decide)⟩

/-! ## C4: malformed numeric values -/

theorem split_eq_aux (l r : List Char) (hl : ∀ c ∈ l, c ≠ '=') :
    (l ++ '=' :: r).takeWhile (fun c => c ≠ '=') = l ∧
    (l ++ '=' :: r).dropWhile (fun c => c ≠ '=') = '=' :: r := by
  induction l with
  | nil => simp [List.takeWhile, List.dropWhile]
  | cons c l ih =>
      have hc : c ≠ '=' := hl c (by simp)
      obtain ⟨ih1, ih2⟩ := ih (fun d hd => hl d (by simp [hd]))
      constructor
      · simpa [List.takeWhile, hc] using ih1
      · simpa [List.dropWhile, hc] using ih2

/-- Splitting a token assembled as `key ++ "=" ++ value`, when the key
contains no `=`. -/
theorem tok_mk (k v : String) (hk : hasEq k = false) :
    hasEq (k ++ "=" ++ v) = true ∧ keyOf (k ++ "=" ++ v) = k ∧
    valOf (k ++ "=" ++ v) = v := by
  have hdata : (k ++ "=" ++ v).toList = k.toList ++ '=' :: v.toList := by
    simp [String.toList]
  have hnl : ∀ c ∈ k.toList, c ≠ '=' := by
    intro c hc hceq
    rw [hasEq] at hk
    subst hceq
    have hnm : '=' ∉ k.toList := by simpa using hk
    exact hnm hc
  obtain ⟨htk, hdr⟩ := split_eq_aux k.toList v.toList hnl
  refine ⟨?_, ?_, ?_⟩
  · rw [hasEq, hdata]
    simp
  · rw [keyOf, hdata, htk]
    cases k
    rfl
  · rw [valOf, hdata, hdr]
    simp only [List.drop_succ_cons, List.drop_zero]
    cases v
    rfl

theorem alGet_eq_of_mem {κ α : Type} [DecidableEq κ] (m : List (κ × α))
    (hnd : (m.map Prod.fst).Nodup) (k : κ) (v : α) (h : (k, v) ∈ m) :
    alGet m k = some v := by
  induction m with
  | nil => cases h
  | cons p m ih =>
      rcases List.mem_cons.1 h with h | h
      · subst h
        simp [alGet, List.find?]
      · have hkm : k ∈ m.map Prod.fst :=
          List.mem_map.2 ⟨(k, v), h, rfl⟩
        have hpk : ¬p.1 = k := by
          intro hpk
          rw [List.map_cons, List.nodup_cons] at hnd
          exact hnd.1 (hpk ▸ hkm)
        have htl : (m.map Prod.fst).Nodup := by
          rw [List.map_cons, List.nodup_cons] at hnd
          exact hnd.2
        simpa [alGet, List.find?, hpk] using ih htl h

/-- A `Face`/`FaceSampleId`/`IrisSampleId`/`LeftEye`/`RightEye` token
whose value does not parse as an integer leaves the loop state unchanged. -/
theorem stepTok_simpleKey_noop (s : ParseState) (t : String)
    (next : Option String) (he : hasEq t = true)
    (hk : keyOf t = "Face" ∨ keyOf t = "FaceSampleId" ∨
      keyOf t = "IrisSampleId" ∨ keyOf t = "LeftEye" ∨ keyOf t = "RightEye")
    (hv : pyInt (valOf t) = none) :
    stepTok s t next = s := by
  rcases hk with hk | hk | hk | hk | hk <;>
    (have hcls : classifyTok s t next = TokAction.skip := by
       simp [classifyTok, he, hk, hv]
     rw [stepTok, hcls]
     rfl)

/-- A stray `nbpk=` token (not consumed by a finger branch) leaves the
loop state unchanged: it matches no branch and is in `handled_keys`. -/
theorem stepTok_nbpk_noop (s : ParseState) (t : String)
    (next : Option String) (he : hasEq t = true) (hk : keyOf t = "nbpk") :
    stepTok s t next = s := by
  have hflk : fingerKeyLookup "nbpk" = none := by decide
  have hhan : "nbpk" ∈ handled_keys := by decide
  have hcls : classifyTok s t next = TokAction.skip := by
    rcases hfps : s.fps_rev with _ | ⟨fp0, fps0⟩ <;>
      simp [classifyTok, he, hk, hflk, hhan, hfps]
  rw [stepTok, hcls]
  rfl

/-- A finger token processed while a group is open records the entry
`{score := parsed value, nbpk := lookahead}` under its finger name in the
current group. -/
theorem stepTok_finger (s : ParseState) (t : String) (next : Option String)
    (fk name : String) (fp : FingerprintSample) (fps : List FingerprintSample)
    (hmem : (fk, name) ∈ finger_keys) (he : hasEq t = true)
    (hk : keyOf t = fk) (hfps : s.fps_rev = fp :: fps) :
    stepTok s t next =
      { s with fps_rev :=
          { fp with values :=
              (alSet fp.values name ⟨pyInt (valOf t), nbpkPeek next⟩) } ::
            fps } := by
  have hflk : fingerKeyLookup fk = some name :=
    alGet_eq_of_mem finger_keys (by decide) fk name hmem
  have hfk : fk ∈ finger_keys.map Prod.fst :=
    List.mem_map.2 ⟨(fk, name), hmem, rfl⟩
  have h1 : ¬keyOf t = "RqType" := by
    rw [hk]; intro hx; rw [hx] at hfk; revert hfk; decide
  have h2 : ¬keyOf t = "ReId" := by
    rw [hk]; intro hx; rw [hx] at hfk; revert hfk; decide
  have h3 : ¬keyOf t = "FaceSampleId" := by
    rw [hk]; intro hx; rw [hx] at hfk; revert hfk; decide
  have h4 : ¬keyOf t = "SampleType" := by
    rw [hk]; intro hx; rw [hx] at hfk; revert hfk; decide
  have h5 : ¬keyOf t = "Face" := by
    rw [hk]; intro hx; rw [hx] at hfk; revert hfk; decide
  have h6 : ¬keyOf t = "IrisSampleId" := by
    rw [hk]; intro hx; rw [hx] at hfk; revert hfk; decide
  have h7 : ¬keyOf t = "LeftEye" := by
    rw [hk]; intro hx; rw [hx] at hfk; revert hfk; decide
  have h8 : ¬keyOf t = "RightEye" := by
    rw [hk]; intro hx; rw [hx] at hfk; revert hfk; decide
  have h9 : ¬keyOf t = "FingerprintSampleId" := by
    rw [hk]; intro hx; rw [hx] at hfk; revert hfk; decide
  have hcls : classifyTok s t next =
      TokAction.setFinger name ⟨pyInt (valOf t), nbpkPeek next⟩ := by
    rw [classifyTok]
    rw [if_neg (by rw [he]; intro hx; cases hx)]
    rw [if_neg h1, if_neg h2, if_neg h3, if_neg (fun hx => h4 hx.1),
      if_neg h5, if_neg h6, if_neg h7, if_neg h8, if_neg h9,
      if_neg (fun hx => h4 hx.1)]
    rw [hk, hflk, hfps]
  rw [stepTok, hcls, applyTok, updCurFinger, hfps]

/-- C4: `parse_line` is total (the embedding returns a record for every
string, all Python `ValueError`s being caught), and a numeric-valued token
whose value does not parse is a pure no-op at the point it is reached —
only the corresponding field stays unset and the rest of the tokens are
processed unchanged: this is stated for `Face`, `FaceSampleId`,
`IrisSampleId`, `LeftEye` and `RightEye` tokens (full no-op), for finger
tokens (the entry is recorded with `score = None`), and for `nbpk` tokens
(the finger entry's `nbpk` stays `None`; a stray `nbpk=` token is also a
no-op). -/
theorem claim_C4 (s : ParseState) (v : String) (rest : List String)
    (hv : pyInt v = none) :
    (∀ line, ∃ r : BiometricsRecord, parse_line line = r) ∧
    processTokens s (("Face" ++ "=" ++ v) :: rest) = processTokens s rest ∧
    processTokens s (("FaceSampleId" ++ "=" ++ v) :: rest) = processTokens s rest ∧
    processTokens s (("IrisSampleId" ++ "=" ++ v) :: rest) = processTokens s rest ∧
    processTokens s (("LeftEye" ++ "=" ++ v) :: rest) = processTokens s rest ∧
    processTokens s (("RightEye" ++ "=" ++ v) :: rest) = processTokens s rest ∧
    (∀ fk name fp fps, (fk, name) ∈ finger_keys → s.fps_rev = fp :: fps →
      processTokens s ((fk ++ "=" ++ v) :: rest) =
        processTokens
          { s with fps_rev :=
              { fp with values :=
                  (alSet fp.values name ⟨none, nbpkPeek rest.head?⟩) } ::
                fps } rest) ∧
    nbpkPeek (some ("nbpk" ++ "=" ++ v)) = none ∧
    processTokens s (("nbpk" ++ "=" ++ v) :: rest) = processTokens s rest := by
  have hface := tok_mk "Face" v (by decide)
  have hfsi := tok_mk "FaceSampleId" v (by decide)
  have hisi := tok_mk "IrisSampleId" v (by decide)
  have hle := tok_mk "LeftEye" v (by decide)
  have hre := tok_mk "RightEye" v (by decide)
  have hnb := tok_mk "nbpk" v (by decide)
  refine ⟨fun line => ⟨parse_line line, rfl⟩, ?_, ?_, ?_, ?_, ?_, ?_, ?_, ?_⟩
  · rw [processTokens, stepTok_simpleKey_noop s _ _ hface.1 (Or.inl hface.2.1)
      (by rw [hface.2.2]; exact hv)]
  · rw [processTokens, stepTok_simpleKey_noop s _ _ hfsi.1
      (Or.inr (Or.inl hfsi.2.1)) (by rw [hfsi.2.2]; exact hv)]
  · rw [processTokens, stepTok_simpleKey_noop s _ _ hisi.1
      (Or.inr (Or.inr (Or.inl hisi.2.1))) (by rw [hisi.2.2]; exact hv)]
  · rw [processTokens, stepTok_simpleKey_noop s _ _ hle.1
      (Or.inr (Or.inr (Or.inr (Or.inl hle.2.1)))) (by rw [hle.2.2]; exact hv)]
  · rw [processTokens, stepTok_simpleKey_noop s _ _ hre.1
      (Or.inr (Or.inr (Or.inr (Or.inr hre.2.1)))) (by rw [hre.2.2]; exact hv)]
  · intro fk name fp fps hmem hfps
    have hfkne : hasEq fk = false := by
      fin_cases hmem <;> decide
    have htk := tok_mk fk v hfkne
    rw [processTokens,
      stepTok_finger s _ _ fk name fp fps hmem htk.1 htk.2.1 hfps, htk.2.2, hv]
  · have h1 : nbpkPeek (some ("nbpk" ++ "=" ++ v)) =
        if hasEq ("nbpk" ++ "=" ++ v) ∧ keyOf ("nbpk" ++ "=" ++ v) = "nbpk" then
          pyInt (valOf ("nbpk" ++ "=" ++ v))
        else none := rfl
    rw [h1, if_pos ⟨hnb.1, hnb.2.1⟩, hnb.2.2]
    exact hv
  · rw [processTokens, stepTok_nbpk_noop s _ _ hnb.1 hnb.2.1]

/-- C4 witness at the unparsable value `"abc"`. -/
theorem claim_C4_witness :
    pyInt "abc" = none ∧
    ((∀ line, ∃ r : BiometricsRecord, parse_line line = r) ∧
     processTokens {} (("Face" ++ "=" ++ "abc") :: ["RqType=IP"]) =
       processTokens {} ["RqType=IP"] ∧
     processTokens {} (("FaceSampleId" ++ "=" ++ "abc") :: ["RqType=IP"]) =
       processTokens {} ["RqType=IP"] ∧
     processTokens {} (("IrisSampleId" ++ "=" ++ "abc") :: ["RqType=IP"]) =
       processTokens {} ["RqType=IP"] ∧
     processTokens {} (("LeftEye" ++ "=" ++ "abc") :: ["RqType=IP"]) =
       processTokens {} ["RqType=IP"] ∧
     processTokens {} (("RightEye" ++ "=" ++ "abc") :: ["RqType=IP"]) =
       processTokens {} ["RqType=IP"] ∧
     (∀ fk name fp fps, (fk, name) ∈ finger_keys →
        ({} : ParseState).fps_rev = fp :: fps →
        processTokens {} ((fk ++ "=" ++ "abc") :: ["RqType=IP"]) =
          processTokens
            { ({} : ParseState) with fps_rev :=
                { fp with values :=
                    (alSet fp.values name
                      ⟨none, nbpkPeek (["RqType=IP"] : List String).head?⟩) } ::
                  fps }
            ["RqType=IP"]) ∧
     nbpkPeek (some ("nbpk" ++ "=" ++ "abc")) = none ∧
     processTokens {} (("nbpk" ++ "=" ++ "abc") :: ["RqType=IP"]) =
       processTokens {} ["RqType=IP"]) :=
  ⟨by decide, claim_C4 {} "abc" ["RqType=IP"] (by decide)⟩

end Ingestor
